import Mathlib

/-!
Shallow embedding of the USAXS scan-log converter (`handler.py`).

The program reads scan-log XML files into a registry keyed by scan id,
then, for each scan record, merges optional SPEC measurement data and
emits a stream of `start` / `descriptor` / `event` / `stop` documents.

Modelling conventions:
* Python dicts become association lists `List (String × _)` with
  last-writer-wins assignment (`dset`) and first-match lookup (`dlookup`);
  dicts built this way have `Nodup` keys, so the two agree with CPython.
* Python floats (times, data values) are modelled as `Int`; only addition
  is performed on them, so no precision issues arise.
* External parsing collaborators (`dateutil.parser`/`datetime`, the float
  parser) are uninterpreted functions bundled in `ExtFns`.
* `uuid.uuid4()` is modelled by a `Nat` counter threaded through the
  builders; each call consumes one counter value.
* Fallible Python code (KeyError, IndexError, TypeError, uncaught
  exceptions) is modelled with `Except String`.
* The filesystem is a map from path to `FsFile` (`invalid` = a file
  spec2nexus rejects with `NotASpecDataFile`, `valid` = an indexed SPEC
  data file); an absent key models `os.path.exists` returning false.
-/

/-- A JSON-like document value (Python dict / str / number / list / None). -/
inductive Value where
  | vstr : String → Value
  | vint : Int → Value
  | vnat : Nat → Value
  | vlist : List Value → Value
  | vdict : List (String × Value) → Value
  | vnone : Value

/-- A document: an ordered string-keyed mapping (Python `OrderedDict`). -/
abbrev Doc := List (String × Value)

/-- Python `d[k] = v` on an ordered dict: replace the first binding of `k`
in place, else append a new binding. -/
def dset {α : Type} : List (String × α) → String → α → List (String × α)
  | [], k, v => [(k, v)]
  | p :: rest, k, v => if p.1 = k then (k, v) :: rest else p :: dset rest k v

/-- Python `d.get(k)` / `d[k]` lookup on an ordered dict. -/
def dlookup {α : Type} (k : String) : List (String × α) → Option α
  | [] => none
  | p :: rest => if p.1 = k then some p.2 else dlookup k rest

/-- Fold a list of assignments into a dict (successive `d[k] = v`). -/
def msets (d : Doc) : List (String × Value) → Doc
  | [] => d
  | (k, v) :: rest => msets (dset d k v) rest

/-- Wrap an optional string the way Python passes a possibly-`None`
attribute value into a document. -/
def ovstr : Option String → Value
  | some s => Value.vstr s
  | none => Value.vnone

/-- The characters scrubbed by `cleanup_name` (handler.py line 64). -/
def badChars : List Char := [',', '.', ' ', '-']

/-- `cleanup_name` (handler.py lines 60-66): replace each comma, period,
space and hyphen by an underscore.  The source applies four successive
single-character `str.replace` passes; since the replacement `_` is not
itself one of the four characters, that equals this single map. -/
def cleanup_name (k : String) : String :=
  String.mk (k.data.map (fun c => if c ∈ badChars then '_' else c))

/-- `s.startswith(p)` / matching a pattern at the head of a char list. -/
def matchHere : List Char → List Char → Bool
  | [], _ => true
  | _ :: _, [] => false
  | a :: as, b :: bs => a == b && matchHere as bs

/-- Python `p in s` (substring containment) on char lists. -/
def pyIn (needle : List Char) : List Char → Bool
  | [] => needle.isEmpty
  | b :: bs => matchHere needle (b :: bs) || pyIn needle bs

/-- Python `key.startswith(pre)`. -/
def pyStarts (pre s : String) : Bool := matchHere pre.data s.data

/-- Python `needle in hay` for strings. -/
def strIn (needle hay : String) : Bool := pyIn needle.data hay.data

/-- Python `hay.find(needle)` (lowest index, or none). -/
def pyFindAux (needle : List Char) : List Char → Nat → Option Nat
  | [], i => if needle.isEmpty then some i else none
  | b :: bs, i => if matchHere needle (b :: bs) then some i else pyFindAux needle bs (i + 1)

/-- Split a char list at every separator position (keeping empty pieces),
accumulating the current piece in reverse. -/
def splitIf (p : Char → Bool) : List Char → List Char → List (List Char)
  | [], acc => [acc.reverse]
  | c :: rest, acc =>
    if p c then acc.reverse :: splitIf p rest [] else splitIf p rest (c :: acc)

/-- Python `key.split(".")` (keeps empty pieces). -/
def pySplitDot (s : String) : List String :=
  (splitIf (fun c => c == '.') s.data []).map String.mk

/-- Python `str.split()` with no arguments: split on whitespace runs,
discarding empty pieces. -/
def pyWords (s : String) : List String :=
  ((splitIf Char.isWhitespace s.data []).map String.mk).filter (fun w => w ≠ "")

/-- One XML child element of a `scan` node (tag, attributes, text). -/
structure XmlNode where
  tag : String
  attrs : List (String × String)
  text : String

/-- One `scan` element of the scan-log XML file. -/
structure ScanNode where
  attrs : List (String × String)
  children : List XmlNode

/-- One scan record as stored in the registry by `read_xml_file`.
`children` holds the child-element map (`started`/`ended` already combined
into a single date-time string); `stream` is the `_stream_` metadata
sidecar installed later by `parse_scan_data`. -/
structure ScanRec where
  xml_filename : String
  xml_id : String
  uuid : Nat
  number : Option String
  state : Option String
  ty : Option String
  children : List (String × String)
  stream : Option (List (String × Value))

/-- One SPEC scan as exposed by spec2nexus (read-only measurement record).
`positioner_xref` / `counter_xref` live on `spec_scan.header` in the
source and map mnemonics to names; they are flattened into this record. -/
structure SpecScan where
  date : String
  scanCmd : String
  comments : List String
  data : List (String × List Int)
  column_first : String
  positioner : List (String × Int)
  metadata : List (String × Value)
  positioner_xref : List (String × String)
  counter_xref : List (String × String)
  T : Option String
  M : Option String

/-- A file on disk, as seen through spec2nexus's opener. -/
inductive FsFile where
  | invalid : FsFile
  | valid : List (String × SpecScan) → FsFile

/-- The filesystem: path ↦ file.  An absent key means the path does not
exist (`os.path.exists` false). -/
abbrev Fs := List (String × FsFile)

/-- The cached open SPEC data file (`specdatafile_obj` global slot). -/
structure SpecDataFile where
  fileName : String
  scans : List (String × SpecScan)

/-- External date/number parsing collaborators, specified at their
interface only (`dateutil.parser`, `datetime`, `float`). -/
structure ExtFns where
  time_float : String → Int
  time_text : Int → String
  parse_float : String → Int

/-- `"{} {}".format(node.get("date"), node.get("time"))` for a
`started`/`ended` element; Python renders a missing attribute as "None". -/
def fmtStarted (nd : XmlNode) : String :=
  (match dlookup "date" nd.attrs with
   | some d => d
   | none => "None") ++ " " ++
  (match dlookup "time" nd.attrs with
   | some t => t
   | none => "None")

/-- The child-element map of one scan node (`scan[subnode.tag] = ...`,
handler.py lines 107-113), with `started`/`ended` combined. -/
def childEntries (nds : List XmlNode) : List (String × String) :=
  nds.foldl
    (fun acc nd =>
      dset acc nd.tag
        (if nd.tag = "started" ∨ nd.tag = "ended" then fmtStarted nd else nd.text))
    []

/-- Build one registry record from a scan node (handler.py lines 100-113). -/
def mkScan (fname : String) (ctr : Nat) (sid : String) (node : ScanNode) : ScanRec :=
  { xml_filename := fname
    xml_id := sid
    uuid := ctr
    number := dlookup "number" node.attrs
    state := dlookup "state" node.attrs
    ty := dlookup "type" node.attrs
    children := childEntries node.children
    stream := none }

/-- The registry: scan id ↦ scan record. -/
abbrev ScanDb := List (String × ScanRec)

/-- The loop body of `read_xml_file` (handler.py lines 95-117): walk the
`scan` nodes in order; a node with no `id` attribute stops the load with
the source's error message (entries already inserted stay); otherwise
upsert the freshly built record (replacing any record under the same id).
Returns the registry, the uuid counter, and the error, if any. -/
def read_xml_nodes (fname : String) :
    List ScanNode → Nat → ScanDb → Nat → ScanDb × Nat × Option String
  | [], _, db, ctr => (db, ctr, none)
  | nd :: rest, i, db, ctr =>
    match dlookup "id" nd.attrs with
    | none =>
      (db, ctr, some ("file " ++ fname ++ ", node " ++ toString i ++ " has no @id attribute"))
    | some sid => read_xml_nodes fname rest (i + 1) (dset db sid (mkScan fname ctr sid nd)) ctr.succ

/-- `read_xml_file` (handler.py lines 69-117). -/
def read_xml_file (fname : String) (nodes : List ScanNode) (db : ScanDb) (ctr : Nat) :
    ScanDb × Nat × Option String :=
  read_xml_nodes fname nodes 0 db ctr

/-- `openSpecDataFile` (handler.py lines 348-363): single-slot cache,
invalidated when the requested path differs from the cached handle's;
`NotASpecDataFile` (an invalid file) is caught and yields no handle with
the slot left empty; a nonexistent path raises an uncaught exception
(spec2nexus's file-not-found error, which the source does not catch).
Returns (result, new cache slot). -/
def openSpecDataFile (fs : Fs) (cache : Option SpecDataFile) (filename : String) :
    Except String (Option SpecDataFile × Option SpecDataFile) :=
  let cache1 : Option SpecDataFile :=
    match cache with
    | some o => if o.fileName = filename then some o else none
    | none => none
  match cache1 with
  | some o => Except.ok (some o, some o)
  | none =>
    match dlookup filename fs with
    | some (FsFile.valid scs) => Except.ok (some ⟨filename, scs⟩, some ⟨filename, scs⟩)
    | some FsFile.invalid => Except.ok (none, none)
    | none => Except.error "SpecDataFileNotFound"

/-- `determine_data_source` (handler.py lines 245-267): classify a field
name by its provenance, first match wins. -/
def determine_data_source (k : String) (ss : SpecScan) : String :=
  if ss.positioner.any (fun p => p.1 == k) then "SPEC positioner"
  else if ss.positioner_xref.any (fun p => p.2 == k) then "SPEC positioner name"
  else if ss.positioner_xref.any (fun p => p.1 == k) then "SPEC positioner mnemonic"
  else if ss.counter_xref.any (fun p => p.2 == k) then "SPEC counter name"
  else if ss.counter_xref.any (fun p => p.1 == k) then "SPEC counter mnemonic"
  else "SPEC value"

/-- Insertion into a key-sorted association list (helper for `sortByKey`). -/
def insortKey {α : Type} (p : String × α) : List (String × α) → List (String × α)
  | [] => [p]
  | q :: rest => if p.1 ≤ q.1 then p :: q :: rest else q :: insortKey p rest

/-- Python `sorted(d.items())` for a dict with (unique) string keys:
sorting by key alone equals tuple sorting. -/
def sortByKey {α : Type} : List (String × α) → List (String × α)
  | [] => []
  | p :: rest => insortKey p (sortByKey rest)

/-- The `start.metadata.<k_clean>.{value,name}` sidecar assignments
(handler.py lines 400-403), in iteration order. -/
def metadataEntries : List (String × Value) → List (String × Value)
  | [] => []
  | p :: rest =>
    ("start.metadata." ++ cleanup_name p.1 ++ ".value", p.2) ::
    ("start.metadata." ++ cleanup_name p.1 ++ ".name", Value.vstr p.1) ::
    metadataEntries rest

/-- The `start.positioner.<k_clean>.{value,name}` sidecar assignments
(handler.py lines 404-407). -/
def positionerEntries : List (String × Int) → List (String × Value)
  | [] => []
  | p :: rest =>
    ("start.positioner." ++ cleanup_name p.1 ++ ".value", Value.vint p.2) ::
    ("start.positioner." ++ cleanup_name p.1 ++ ".name", Value.vstr p.1) ::
    positionerEntries rest

/-- The `start.counter_basis` sidecar assignment (handler.py lines
387-399): fixed time when `T` is present and non-empty, else fixed
monitor count when `M` is, else nothing. -/
def counterBasisEntries (ext : ExtFns) (ss : SpecScan) : List (String × Value) :=
  if (ss.T.getD "").length > 0 then
    [("start.counter_basis",
      Value.vdict [("description", Value.vstr "fixed time"),
                   ("value", Value.vint (ext.parse_float (ss.T.getD ""))),
                   ("units", Value.vstr "s")])]
  else if (ss.M.getD "").length > 0 then
    [("start.counter_basis",
      Value.vdict [("description", Value.vstr "fixed monitor count"),
                   ("value", Value.vint (ext.parse_float (ss.M.getD ""))),
                   ("units", Value.vstr "counts")])]
  else []

/-- The `_stream_` sidecar as first populated by `parse_scan_data`
(handler.py lines 384-407), before the macro dispatch. -/
def baseSidecar (ext : ExtFns) (ss : SpecScan) : Doc :=
  msets []
    (("start.SPEC.command", Value.vstr ss.scanCmd) ::
      (counterBasisEntries ext ss ++
        (metadataEntries (sortByKey ss.metadata) ++
          positionerEntries (sortByKey ss.positioner))))

/-- One more sidecar assignment (`scanmeta[k] = v`) on a record whose
sidecar is already installed. -/
def setStream (scan : ScanRec) (k : String) (v : Value) : ScanRec :=
  { scan with stream := scan.stream.map (fun m => dset m k v) }

/-- Walk/create nested dicts along `parts` and assign the final segment
(the loop body of `add_event_metadata`, handler.py lines 336-345).
Meeting a non-dict value below an intermediate segment is a Python
`TypeError` (the source would next index or test membership on it). -/
def setPath (doc : Doc) : List String → Value → Except String Doc
  | [], _ => Except.error "IndexError: empty key path"
  | [last], v => Except.ok (dset doc last v)
  | item :: rest, v =>
    match dlookup item doc with
    | some (Value.vdict sub) =>
      match setPath sub rest v with
      | Except.error e => Except.error e
      | Except.ok sub2 => Except.ok (dset doc item (Value.vdict sub2))
    | some _ => Except.error "TypeError: intermediate value is not a dict"
    | none =>
      match setPath [] rest v with
      | Except.error e => Except.error e
      | Except.ok sub2 => Except.ok (dset doc item (Value.vdict sub2))

/-- Iterate the sidecar entries, applying those with the `doc_type.`
prefix (handler.py lines 334-345). -/
def applyMeta : List (String × Value) → Doc → String → Except String Doc
  | [], doc, _ => Except.ok doc
  | (k, v) :: rest, doc, dt =>
    if pyStarts (dt ++ ".") k then
      match setPath doc ((pySplitDot k).drop 1) v with
      | Except.error e => Except.error e
      | Except.ok doc2 => applyMeta rest doc2 dt
    else applyMeta rest doc dt

/-- `add_event_metadata` (handler.py lines 332-345). -/
def add_event_metadata (scan : ScanRec) (doc : Doc) (doc_type : String) : Except String Doc :=
  match scan.stream with
  | none => Except.ok doc
  | some m => applyMeta m doc doc_type

/-- `make_start_document` (handler.py lines 120-188).  Missing `started`,
`file` or `title` child entries are Python `KeyError`s, raised in the
source's evaluation order. -/
def make_start_document (ext : ExtFns) (scan : ScanRec) : Except String Doc :=
  match dlookup "started" scan.children with
  | none => Except.error "KeyError: started"
  | some started =>
    match dlookup "file" scan.children with
    | none => Except.error "KeyError: file"
    | some file =>
      match dlookup "title" scan.children with
      | none => Except.error "KeyError: title"
      | some title =>
        add_event_metadata scan
          [("time", Value.vint (ext.time_float started)),
           ("plan_name", ovstr scan.ty),
           ("uid", Value.vnat scan.uuid),
           ("scan_id", ovstr scan.number),
           ("time_text", Value.vstr started),
           ("SPEC", Value.vdict
             [("filename", Value.vstr file),
              ("scan_number", ovstr scan.number),
              ("scan_macro", ovstr scan.ty),
              ("title", Value.vstr title)]),
           ("scanlog_id", Value.vstr scan.xml_id)]
          "start"

/-- The `exit_status` mapping (handler.py lines 229-233): a literal dict
indexed by the scan state; any other state is a `KeyError`. -/
def exitStatus : Option String → Option String
  | some s => if s = "complete" then some "success" else if s = "scanning" then some "aborted" else none
  | none => none

/-- Render the scan state for the `KeyError` message (`None` when absent). -/
def stateText : Option String → String
  | some s => s
  | none => "None"

/-- `make_stop_document` (handler.py lines 191-242).  For `state ==
"unknown"` no stop document is produced; otherwise `t` is `ended` with
fallback `started` (Python evaluates `scan["started"]` eagerly, so a
missing `started` is a `KeyError` even when `ended` is present), and an
unmapped state is a `KeyError` on the exit-status dict.  One uuid is
consumed.  Returns (optional document, next counter). -/
def make_stop_document (ext : ExtFns) (ctr : Nat) (scan : ScanRec) :
    Except String (Option Doc × Nat) :=
  if scan.state = some "unknown" then Except.ok (none, ctr)
  else
    match dlookup "started" scan.children with
    | none => Except.error "KeyError: started"
    | some started =>
      let t := (dlookup "ended" scan.children).getD started
      match exitStatus scan.state with
      | none => Except.error ("KeyError: " ++ stateText scan.state)
      | some es =>
        match add_event_metadata scan
            [("time", Value.vint (ext.time_float t)),
             ("uid", Value.vnat ctr),
             ("run_start", Value.vnat scan.uuid),
             ("exit_status", Value.vstr es),
             ("time_text", Value.vstr t),
             ("scanlog_state", ovstr scan.state)]
            "stop" with
        | Except.error e => Except.error e
        | Except.ok d => Except.ok (some d, ctr + 1)

/-- The per-row elapsed time `spec_scan.data.get("Epoch", 0)[i]`
(handler.py line 313), with Python semantics: when the `Epoch` column is
absent the default `0` (an int) is subscripted, a `TypeError`; when it is
present but shorter than `i`, an `IndexError`. -/
def epochAt (cols : List (String × List Int)) (i : Nat) : Except String Int :=
  match dlookup "Epoch" cols with
  | some col =>
    match col[i]? with
    | some e => Except.ok e
    | none => Except.error "IndexError: list index out of range"
  | none => Except.error "TypeError: int object is not subscriptable"

/-- Build one event's `data` and `timestamps` dicts (handler.py lines
321-324): per column, `data[k_clean] = v[i]` and `timestamps[k_clean] = t`. -/
def buildRow (cols : List (String × List Int)) (i : Nat) (t : Int) (dm tm : Doc) :
    Except String (Doc × Doc) :=
  match cols with
  | [] => Except.ok (dm, tm)
  | (k, col) :: rest =>
    match col[i]? with
    | none => Except.error "IndexError: list index out of range"
    | some v =>
      buildRow rest i t (dset dm (cleanup_name k) (Value.vint v))
        (dset tm (cleanup_name k) (Value.vint t))

/-- The descriptor's `data_keys` dict (handler.py lines 286-296). -/
def build_data_keys (cols : List (String × List Int)) (ss : SpecScan) (acc : Doc) : Doc :=
  match cols with
  | [] => acc
  | (k, _) :: rest =>
    build_data_keys rest ss
      (dset acc (cleanup_name k)
        (Value.vdict [("dtype", Value.vstr "number"),
                      ("source", Value.vstr (determine_data_source k ss)),
                      ("shape", Value.vlist []),
                      ("SPEC_name", Value.vstr k)]))

/-- The event loop of `process_SPEC_scan_data` (handler.py lines 311-327):
emit one event per observation row.  Arguments after the fixed data are
the uuid counter, the row index, and the number of remaining rows. -/
def mk_events (ext : ExtFns) (ss : SpecScan) (t_base : Int) (du : Nat) :
    Nat → Nat → Nat → Except String (List (String × Doc) × Nat)
  | ctr, _, 0 => Except.ok ([], ctr)
  | ctr, i, Nat.succ m =>
    match epochAt ss.data i with
    | Except.error e => Except.error e
    | Except.ok ep =>
      match buildRow ss.data i (ep + t_base) [] [] with
      | Except.error e => Except.error e
      | Except.ok (dm, tm) =>
        match mk_events ext ss t_base du (ctr + 1) (i + 1) m with
        | Except.error e => Except.error e
        | Except.ok (rest, ctr2) =>
          Except.ok
            (("event",
              [("time", Value.vint (ep + t_base)),
               ("uid", Value.vnat ctr),
               ("seq_num", Value.vnat (i + 1)),
               ("descriptor", Value.vnat du),
               ("data", Value.vdict dm),
               ("timestamps", Value.vdict tm),
               ("time_text", Value.vstr (ext.time_text (ep + t_base)))]) :: rest, ctr2)

/-- `process_SPEC_scan_data` (handler.py lines 270-329): build the
descriptor, then — unless the first data column is missing, in which case
the already-built descriptor is discarded and `None` returned — record
`stop.num_events` in the sidecar and emit one event per row.  Returns
(optional document list, cache slot, uuid counter, updated scan). -/
def process_SPEC_scan_data (ext : ExtFns) (fs : Fs) (cache : Option SpecDataFile) (ctr : Nat)
    (scan : ScanRec) :
    Except String (Option (List (String × Doc)) × Option SpecDataFile × Nat × ScanRec) :=
  match dlookup "file" scan.children with
  | none => Except.error "KeyError: file"
  | some file =>
    match openSpecDataFile fs cache file with
    | Except.error e => Except.error e
    | Except.ok (none, cache1) => Except.ok (none, cache1, ctr, scan)
    | Except.ok (some sdf, cache1) =>
      match scan.number with
      | none => Except.error "TypeError: getScan None"
      | some num =>
        match dlookup num sdf.scans with
        | none => Except.error ("scan not found: " ++ num)
        | some ss =>
          let t_base := ext.time_float ss.date
          let ddoc : Doc :=
            [("time", Value.vint t_base),
             ("uid", Value.vnat ctr),
             ("run_start", Value.vnat scan.uuid),
             ("data_keys", Value.vdict (build_data_keys ss.data ss [])),
             ("time_text", Value.vstr (ext.time_text t_base))]
          match dlookup ss.column_first ss.data with
          | none => Except.ok (none, cache1, ctr + 1, scan)
          | some dataset =>
            match scan.stream with
            | none => Except.error "KeyError: _stream_"
            | some m =>
              let scan1 :=
                { scan with stream := some (dset m "stop.num_events" (Value.vnat dataset.length)) }
              match mk_events ext ss t_base ctr (ctr + 1) 0 dataset.length with
              | Except.error e => Except.error e
              | Except.ok (evs, ctr2) =>
                Except.ok (some (("descriptor", ddoc) :: evs), cache1, ctr2, scan1)

/-- The image-only acquisition macros (handler.py line 411). -/
def imageMacros : List String := ["SAXS", "WAXS", "pinSAXS"]

/-- The fly-scan comment marker (handler.py line 416). -/
def flyMarker : String := "FlyScan file name = "

/-- Scan the comment lines for the fly-scan marker and extract the
trailing path (handler.py lines 417-422): first comment containing the
marker wins; the slice `comm[p:-1]` drops the comment's final character. -/
def flyscan_hdf5 : List String → Option String
  | [] => none
  | comm :: rest =>
    match pyFindAux flyMarker.data comm.data 0 with
    | some p =>
      some (String.mk ((comm.data.take (comm.data.length - 1)).drop (p + flyMarker.length)))
    | none => flyscan_hdf5 rest

/-- `parse_scan_data` (handler.py lines 366-428): skip scans whose data
file path does not exist (before any open attempt) or cannot be opened;
otherwise install the sidecar and dispatch on the command's first token.
Note the source's `macro_name in ('FlyScan')` is a substring test on the
string "FlyScan", not membership in a one-element tuple. -/
def parse_scan_data (ext : ExtFns) (fs : Fs) (cache : Option SpecDataFile) (ctr : Nat)
    (scan : ScanRec) :
    Except String (Option (List (String × Doc)) × Option SpecDataFile × Nat × ScanRec) :=
  match dlookup "file" scan.children with
  | none => Except.error "KeyError: file"
  | some file =>
    if (dlookup file fs).isNone then Except.ok (none, cache, ctr, scan)
    else
      match openSpecDataFile fs cache file with
      | Except.error e => Except.error e
      | Except.ok (none, cache1) => Except.ok (none, cache1, ctr, scan)
      | Except.ok (some sdf, cache1) =>
        match scan.number with
        | none => Except.error "TypeError: getScan None"
        | some num =>
          match dlookup num sdf.scans with
          | none => Except.error ("scan not found: " ++ num)
          | some ss =>
            let scan1 := { scan with stream := some (baseSidecar ext ss) }
            match pyWords ss.scanCmd with
            | [] => Except.error "IndexError: scanCmd split"
            | macro_name :: restToks =>
              if macro_name ∈ imageMacros then
                match restToks with
                | [] => Except.error "IndexError: scanCmd split 1"
                | arg :: _ =>
                  Except.ok (some [], cache1, ctr,
                    setStream scan1 "start.SPEC.hdf5_file" (Value.vstr arg))
              else if strIn macro_name "FlyScan" then
                match flyscan_hdf5 ss.comments with
                | some path =>
                  Except.ok (some [], cache1, ctr,
                    setStream scan1 "start.SPEC.hdf5_file" (Value.vstr path))
                | none => Except.ok (some [], cache1, ctr, scan1)
              else
                match process_SPEC_scan_data ext fs cache1 ctr scan1 with
                | Except.error e => Except.error e
                | Except.ok (none, cache2, ctr2, scan2) =>
                  Except.ok (some [], cache2, ctr2, scan2)
                | Except.ok (some l, cache2, ctr2, scan2) =>
                  Except.ok (some l, cache2, ctr2, scan2)

/-- The loop body of `make_document_stream` (handler.py lines 441-462):
extract the scan's data, then emit `start`, the extracted documents, and
the `stop` (when not suppressed). -/
def process_one_scan (ext : ExtFns) (fs : Fs) (cache : Option SpecDataFile) (ctr : Nat)
    (scan : ScanRec) :
    Except String (List (String × Doc) × Option SpecDataFile × Nat) :=
  match parse_scan_data ext fs cache ctr scan with
  | Except.error e => Except.error e
  | Except.ok (ds, cache1, ctr1, scan1) =>
    match make_start_document ext scan1 with
    | Except.error e => Except.error e
    | Except.ok start =>
      match make_stop_document ext ctr1 scan1 with
      | Except.error e => Except.error e
      | Except.ok (stopd, ctr2) =>
        Except.ok
          (("start", start) :: (ds.getD [] ++
            (match stopd with
             | some d => [("stop", d)]
             | none => [])), cache1, ctr2)

/-- `make_document_stream` (handler.py lines 431-464), modelled as the
concatenation of the per-scan batches written to the JSON sink. -/
def make_document_stream (ext : ExtFns) (fs : Fs) :
    Option SpecDataFile → Nat → List ScanRec → Except String (List (String × Doc))
  | _, _, [] => Except.ok []
  | cache, ctr, scan :: rest =>
    match process_one_scan ext fs cache ctr scan with
    | Except.error e => Except.error e
    | Except.ok (docs, cache1, ctr1) =>
      match make_document_stream ext fs cache1 ctr1 rest with
      | Except.error e => Except.error e
      | Except.ok docs2 => Except.ok (docs ++ docs2)

/-! ## Basic properties of the dict model -/

/-- A string containing none of the scrubbed characters. -/
def noBad (s : String) : Prop := ∀ c ∈ s.data, c ∉ badChars

/-- All keys of a dict are sanitized. -/
def keysNoBad (m : Doc) : Prop := ∀ p ∈ m, noBad p.1

theorem dlookup_dset_self {α : Type} (d : List (String × α)) (k : String) (v : α) :
    dlookup k (dset d k v) = some v := by
  induction d with
  | nil => simp [dset, dlookup]
  | cons p rest ih =>
    by_cases h : p.1 = k
    · simp [dset, h, dlookup]
    · simp [dset, h, dlookup, ih]

theorem dlookup_dset_ne {α : Type} (d : List (String × α)) (k k' : String) (v : α)
    (h : k' ≠ k) : dlookup k' (dset d k v) = dlookup k' d := by
  have h2 : ¬ k = k' := fun hh => h hh.symm
  induction d with
  | nil => simp [dset, dlookup, h2]
  | cons p rest ih =>
    by_cases hp : p.1 = k
    · simp [dset, dlookup, hp, h2]
    · simp [dset, dlookup, hp, ih]

theorem mem_dset {α : Type} {d : List (String × α)} {k : String} {v : α} {p : String × α}
    (h : p ∈ dset d k v) : p ∈ d ∨ p = (k, v) := by
  induction d with
  | nil => simp [dset] at h; simp [h]
  | cons q rest ih =>
    by_cases hq : q.1 = k
    · simp [dset, hq] at h
      rcases h with h | h
      · right; simp [h]
      · left; simp [h]
    · simp [dset, hq] at h
      rcases h with h | h
      · left; simp [h]
      · rcases ih h with h' | h'
        · left; simp [h']
        · right; exact h'

theorem keys_dset {α : Type} (d : List (String × α)) (k : String) (v : α) :
    (dset d k v).map Prod.fst =
      if k ∈ d.map Prod.fst then d.map Prod.fst else d.map Prod.fst ++ [k] := by
  induction d with
  | nil => simp [dset]
  | cons p rest ih =>
    by_cases hp : p.1 = k
    · simp [dset, hp]
    · have hkp : ¬ k = p.1 := fun hh => hp hh.symm
      by_cases hk : k ∈ rest.map Prod.fst <;>
        simp [dset, hp, ih, hk, List.mem_cons, hkp]

theorem mem_keys_dset {α : Type} {d : List (String × α)} {k k' : String} {v : α} :
    k' ∈ (dset d k v).map Prod.fst ↔ k' ∈ d.map Prod.fst ∨ k' = k := by
  rw [keys_dset]
  split
  · constructor
    · intro h; exact Or.inl h
    · rintro (h | h)
      · exact h
      · subst h; assumption
  · simp

theorem nodup_keys_dset {α : Type} {d : List (String × α)} (k : String) (v : α)
    (h : (d.map Prod.fst).Nodup) : ((dset d k v).map Prod.fst).Nodup := by
  rw [keys_dset]
  split
  · exact h
  · rename_i hk
    simp [List.nodup_append, h, hk]

theorem dlookup_eq_none_of_not_mem {α : Type} {d : List (String × α)} {k : String}
    (h : k ∉ d.map Prod.fst) : dlookup k d = none := by
  induction d with
  | nil => rfl
  | cons p rest ih =>
    have h1 : ¬ p.1 = k := by
      intro hh
      exact h (by simp [List.map_cons, List.mem_cons]; exact Or.inl hh.symm)
    have h2 : k ∉ rest.map Prod.fst := by
      intro hh
      apply h
      rw [List.map_cons]
      exact List.mem_cons_of_mem _ hh
    simp [dlookup, h1, ih h2]

theorem keysNoBad_dset {d : Doc} {k : String} {v : Value}
    (hd : keysNoBad d) (hk : noBad k) : keysNoBad (dset d k v) := by
  intro p hp
  rcases mem_dset hp with h | h
  · exact hd p h
  · subst h; exact hk

/-! ## Sanitization -/

theorem cleanup_name_noBad (k : String) : noBad (cleanup_name k) := by
  intro c hc
  simp only [cleanup_name] at hc
  rcases List.mem_map.mp hc with ⟨c', _, hmap⟩
  by_cases h : c' ∈ badChars
  · rw [if_pos h] at hmap
    subst hmap
    decide
  · rw [if_neg h] at hmap
    subst hmap
    exact h

theorem cleanup_name_HKL : cleanup_name "H K L" = "H_K_L" := by rfl

/-! ## Prefix / substring facts -/

theorem str_data_append : ∀ (a b : String), (a ++ b).data = a.data ++ b.data
  | ⟨_⟩, ⟨_⟩ => rfl

theorem matchHere_append_left : ∀ (p l r : List Char),
    matchHere p l = true → matchHere p (l ++ r) = true
  | [], _, _, _ => rfl
  | _ :: _, [], _, h => by simp [matchHere] at h
  | a :: as, b :: bs, r, h => by
    simp [matchHere] at h
    simp [matchHere, h.1, matchHere_append_left as bs r h.2]

theorem pyStarts_append_left (pre a b : String) (h : pyStarts pre a = true) :
    pyStarts pre (a ++ b) = true := by
  unfold pyStarts at *
  rw [str_data_append]
  exact matchHere_append_left _ _ _ h

theorem matchHere_start_not_stop (l : List Char)
    (h : matchHere "start.".data l = true) : matchHere "stop.".data l = false := by
  rw [show "start.".data = ['s', 't', 'a', 'r', 't', '.'] from rfl] at h
  rw [show "stop.".data = ['s', 't', 'o', 'p', '.'] from rfl]
  match l with
  | [] => simp [matchHere] at h
  | [a] => simp [matchHere] at h
  | [a, b] => simp [matchHere] at h
  | a :: b :: c :: t =>
    simp only [matchHere, Bool.and_eq_true, beq_iff_eq] at h
    obtain ⟨h1, h2, h3, _⟩ := h
    subst h1; subst h2; subst h3
    have hao : (('a' : Char) == 'o') = false := by decide
    simp [matchHere, hao]

theorem pyStarts_start_not_stop (k : String) (h : pyStarts "start." k = true) :
    pyStarts "stop." k = false := matchHere_start_not_stop _ h

/-! ## Sidecar key discipline -/

theorem mem_msets {p : String × Value} :
    ∀ (l : List (String × Value)) (d : Doc), p ∈ msets d l →
      p ∈ d ∨ p.1 ∈ l.map Prod.fst
  | [], _, h => Or.inl h
  | (k, v) :: rest, d, h => by
    rcases mem_msets rest (dset d k v) h with h' | h'
    · rcases mem_dset h' with h'' | h''
      · exact Or.inl h''
      · right
        simp [h'']
    · right
      simp [h']

theorem nodup_keys_msets :
    ∀ (l : List (String × Value)) (d : Doc), (d.map Prod.fst).Nodup →
      ((msets d l).map Prod.fst).Nodup
  | [], _, h => h
  | (k, v) :: rest, d, h =>
    nodup_keys_msets rest (dset d k v) (nodup_keys_dset k v h)

theorem pyStarts_start_counterBasis (ext : ExtFns) (ss : SpecScan) :
    ∀ p ∈ counterBasisEntries ext ss, pyStarts "start." p.1 = true := by
  intro p hp
  unfold counterBasisEntries at hp
  split at hp
  · simp at hp
    simp [hp]
    decide
  · split at hp
    · simp at hp
      simp [hp]
      decide
    · simp at hp

theorem pyStarts_start_metadataEntries :
    ∀ (l : List (String × Value)), ∀ p ∈ metadataEntries l, pyStarts "start." p.1 = true
  | [], p, hp => by simp [metadataEntries] at hp
  | q :: rest, p, hp => by
    simp only [metadataEntries, List.mem_cons] at hp
    have hbase : pyStarts "start." "start.metadata." = true := by decide
    rcases hp with h | h | h
    · rw [h]
      exact pyStarts_append_left _ _ _ (pyStarts_append_left _ _ _ hbase)
    · rw [h]
      exact pyStarts_append_left _ _ _ (pyStarts_append_left _ _ _ hbase)
    · exact pyStarts_start_metadataEntries rest p h

theorem pyStarts_start_positionerEntries :
    ∀ (l : List (String × Int)), ∀ p ∈ positionerEntries l, pyStarts "start." p.1 = true
  | [], p, hp => by simp [positionerEntries] at hp
  | q :: rest, p, hp => by
    simp only [positionerEntries, List.mem_cons] at hp
    have hbase : pyStarts "start." "start.positioner." = true := by decide
    rcases hp with h | h | h
    · rw [h]
      exact pyStarts_append_left _ _ _ (pyStarts_append_left _ _ _ hbase)
    · rw [h]
      exact pyStarts_append_left _ _ _ (pyStarts_append_left _ _ _ hbase)
    · exact pyStarts_start_positionerEntries rest p h

theorem baseSidecar_start_keys (ext : ExtFns) (ss : SpecScan) :
    ∀ p ∈ baseSidecar ext ss, pyStarts "start." p.1 = true := by
  intro p hp
  rcases mem_msets _ _ hp with h | h
  · simp at h
  · simp only [List.map_cons, List.map_append, List.mem_cons, List.mem_append] at h
    rcases h with h | h | h | h
    · rw [h]
      decide
    · rcases List.mem_map.mp h with ⟨q, hq, hq1⟩
      rw [← hq1]
      exact pyStarts_start_counterBasis ext ss q hq
    · rcases List.mem_map.mp h with ⟨q, hq, hq1⟩
      rw [← hq1]
      exact pyStarts_start_metadataEntries _ q hq
    · rcases List.mem_map.mp h with ⟨q, hq, hq1⟩
      rw [← hq1]
      exact pyStarts_start_positionerEntries _ q hq

theorem baseSidecar_nodup (ext : ExtFns) (ss : SpecScan) :
    ((baseSidecar ext ss).map Prod.fst).Nodup :=
  nodup_keys_msets _ _ (by simp)

/-! ## Flattening into the stop document -/

theorem applyMeta_stop :
    ∀ (m : List (String × Value)),
      (∀ p ∈ m, pyStarts "start." p.1 = true ∨ p.1 = "stop.num_events") →
      (m.map Prod.fst).Nodup →
      ∀ (doc : Doc),
        applyMeta m doc "stop" =
          (match dlookup "stop.num_events" m with
           | some v => Except.ok (dset doc "num_events" v)
           | none => Except.ok doc) := by
  intro m
  induction m with
  | nil => intro _ _ doc; rfl
  | cons q rest ih =>
    intro hm hnd doc
    obtain ⟨k, v⟩ := q
    have hnd' : (rest.map Prod.fst).Nodup := (List.nodup_cons.mp hnd).2
    have hm' : ∀ p ∈ rest, pyStarts "start." p.1 = true ∨ p.1 = "stop.num_events" :=
      fun p hp => hm p (List.mem_cons_of_mem _ hp)
    rcases hm (k, v) (List.mem_cons_self _ _) with hstart | hkey
    · have hstart2 : pyStarts "start." k = true := hstart
      have hno : pyStarts ("stop" ++ ".") k = false := by
        rw [show ("stop" ++ "." : String) = "stop." from rfl]
        exact pyStarts_start_not_stop k hstart2
      have hkne : ¬ k = "stop.num_events" := by
        intro hh
        rw [hh] at hstart2
        exact absurd hstart2 (by decide)
      simp only [applyMeta, hno, Bool.false_eq_true, if_false]
      rw [ih hm' hnd' doc]
      simp [dlookup, hkne]
    · have hk2 : k = "stop.num_events" := hkey
      subst hk2
      have hnotmem : "stop.num_events" ∉ rest.map Prod.fst := by
        simp only [List.map_cons] at hnd
        exact (List.nodup_cons.mp hnd).1
      have happ : applyMeta (("stop.num_events", v) :: rest) doc "stop"
          = applyMeta rest (dset doc "num_events" v) "stop" := rfl
      rw [happ, ih hm' hnd' (dset doc "num_events" v),
        dlookup_eq_none_of_not_mem hnotmem]
      simp [dlookup]

theorem make_stop_none_iff (ext : ExtFns) (ctr : Nat) (scan : ScanRec)
    (stopd : Option Doc) (ctr2 : Nat)
    (h : make_stop_document ext ctr scan = Except.ok (stopd, ctr2)) :
    stopd = none ↔ scan.state = some "unknown" := by
  simp only [make_stop_document] at h
  split at h
  · rename_i hu
    simp only [Except.ok.injEq, Prod.mk.injEq] at h
    simp [← h.1, hu]
  · rename_i hu
    split at h
    · cases h
    · split at h
      · cases h
      · split at h
        · cases h
        · simp only [Except.ok.injEq, Prod.mk.injEq] at h
          simp [← h.1, hu]

theorem make_stop_num_events_none (ext : ExtFns) (ctr : Nat) (scan : ScanRec)
    (d : Doc) (ctr2 : Nat)
    (hstream : scan.stream = none)
    (h : make_stop_document ext ctr scan = Except.ok (some d, ctr2)) :
    dlookup "num_events" d = none := by
  simp only [make_stop_document] at h
  split at h
  · cases h
  · split at h
    · cases h
    · split at h
      · cases h
      · simp only [add_event_metadata, hstream] at h
        simp only [Except.ok.injEq, Prod.mk.injEq, Option.some.injEq] at h
        rw [← h.1]
        rfl

theorem make_stop_num_events_sidecar (ext : ExtFns) (ctr : Nat) (scan : ScanRec)
    (d : Doc) (ctr2 : Nat) (m : List (String × Value))
    (hstream : scan.stream = some m)
    (hm : ∀ p ∈ m, pyStarts "start." p.1 = true ∨ p.1 = "stop.num_events")
    (hnd : (m.map Prod.fst).Nodup)
    (h : make_stop_document ext ctr scan = Except.ok (some d, ctr2)) :
    dlookup "num_events" d = dlookup "stop.num_events" m := by
  simp only [make_stop_document] at h
  split at h
  · cases h
  · split at h
    · cases h
    · split at h
      · cases h
      · simp only [add_event_metadata, hstream] at h
        rw [applyMeta_stop m hm hnd] at h
        split at h
        · cases h
        · rename_i sub2 hv
          simp only [Except.ok.injEq, Prod.mk.injEq, Option.some.injEq] at h
          obtain ⟨h1, h2⟩ := h
          split at hv
          · rename_i v hvv
            simp only [Except.ok.injEq] at hv
            rw [← h1, ← hv, dlookup_dset_self, hvv]
          · rename_i hvv
            simp only [Except.ok.injEq] at hv
            rw [← h1, ← hv, hvv]
            rfl

/-! ## Event and descriptor characterization -/

/-- Number of documents of a given kind in a stream fragment. -/
def countKind (docs : List (String × Doc)) (k : String) : Nat :=
  (docs.filter (fun d => d.1 = k)).length

/-- The `seq_num` of a document, when it is a `vnat`. -/
def evSeq (d : Doc) : Option Nat :=
  match dlookup "seq_num" d with
  | some (Value.vnat n) => some n
  | _ => none

/-- The sequence numbers of the `event` documents of a stream fragment,
in order. -/
def eventSeqs (docs : List (String × Doc)) : List Nat :=
  docs.filterMap (fun e => if e.1 = "event" then evSeq e.2 else none)

theorem keysNoBad_nil : keysNoBad [] := by
  intro p hp
  cases hp

theorem buildRow_clean :
    ∀ (cols : List (String × List Int)) (i : Nat) (t : Int) (dm tm dm2 tm2 : Doc),
      keysNoBad dm → keysNoBad tm → buildRow cols i t dm tm = Except.ok (dm2, tm2) →
      keysNoBad dm2 ∧ keysNoBad tm2 := by
  intro cols
  induction cols with
  | nil =>
    intro i t dm tm dm2 tm2 h1 h2 h
    simp only [buildRow, Except.ok.injEq, Prod.mk.injEq] at h
    rw [← h.1, ← h.2]
    exact ⟨h1, h2⟩
  | cons q rest ih =>
    intro i t dm tm dm2 tm2 h1 h2 h
    obtain ⟨k, col⟩ := q
    simp only [buildRow] at h
    split at h
    · cases h
    · exact ih i t _ _ dm2 tm2 (keysNoBad_dset h1 (cleanup_name_noBad k))
        (keysNoBad_dset h2 (cleanup_name_noBad k)) h

theorem build_data_keys_clean :
    ∀ (cols : List (String × List Int)) (ss : SpecScan) (acc : Doc),
      keysNoBad acc → keysNoBad (build_data_keys cols ss acc) := by
  intro cols
  induction cols with
  | nil => intro ss acc h; exact h
  | cons q rest ih =>
    intro ss acc h
    exact ih ss _ (keysNoBad_dset h (cleanup_name_noBad q.1))

theorem mk_events_char (ext : ExtFns) (ss : SpecScan) (tb : Int) (du : Nat) :
    ∀ (n ctr i : Nat) (l : List (String × Doc)) (c2 : Nat),
      mk_events ext ss tb du ctr i n = Except.ok (l, c2) →
      l.length = n ∧
      (∀ e ∈ l, e.1 = "event" ∧
        (∀ md, dlookup "data" e.2 = some (Value.vdict md) → keysNoBad md) ∧
        (∀ md, dlookup "timestamps" e.2 = some (Value.vdict md) → keysNoBad md)) ∧
      eventSeqs l = List.range' (i + 1) n := by
  intro n
  induction n with
  | zero =>
    intro ctr i l c2 h
    simp only [mk_events, Except.ok.injEq, Prod.mk.injEq] at h
    rw [← h.1]
    simp [eventSeqs]
  | succ n ih =>
    intro ctr i l c2 h
    simp only [mk_events] at h
    split at h
    · cases h
    · rename_i ep hep
      split at h
      · cases h
      · rename_i dm tm hrow
        split at h
        · cases h
        · rename_i rest ctr2 hrec
          obtain ⟨hlen, hall, hseq⟩ := ih (ctr + 1) (i + 1) rest ctr2 hrec
          obtain ⟨hdm, htm⟩ := buildRow_clean ss.data i (ep + tb) [] [] dm tm
            keysNoBad_nil keysNoBad_nil hrow
          simp only [Except.ok.injEq, Prod.mk.injEq] at h
          rw [← h.1]
          refine ⟨by simp [hlen], ?_, ?_⟩
          · intro e he
            rcases List.mem_cons.mp he with he | he
            · subst he
              refine ⟨rfl, ?_, ?_⟩
              · intro md hmd
                have : md = dm := by
                  rw [show dlookup "data"
                    [("time", Value.vint (ep + tb)), ("uid", Value.vnat ctr),
                     ("seq_num", Value.vnat (i + 1)), ("descriptor", Value.vnat du),
                     ("data", Value.vdict dm), ("timestamps", Value.vdict tm),
                     ("time_text", Value.vstr (ext.time_text (ep + tb)))] =
                    some (Value.vdict dm) from rfl] at hmd
                  cases hmd
                  rfl
                rw [this]
                exact hdm
              · intro md hmd
                have : md = tm := by
                  rw [show dlookup "timestamps"
                    [("time", Value.vint (ep + tb)), ("uid", Value.vnat ctr),
                     ("seq_num", Value.vnat (i + 1)), ("descriptor", Value.vnat du),
                     ("data", Value.vdict dm), ("timestamps", Value.vdict tm),
                     ("time_text", Value.vstr (ext.time_text (ep + tb)))] =
                    some (Value.vdict tm) from rfl] at hmd
                  cases hmd
                  rfl
                rw [this]
                exact htm
            · exact hall e he
          · show eventSeqs (_ :: rest) = List.range' (i + 1) (n + 1)
            rw [show List.range' (i + 1) (n + 1) = (i + 1) :: List.range' (i + 1 + 1) n from rfl]
            rw [← hseq]
            rfl

/-- A well-formed emitted event entry: kind `event`, sanitized `data` and
`timestamps` keys. -/
def eventDocOK (e : String × Doc) : Prop :=
  e.1 = "event" ∧
  (∀ md, dlookup "data" e.2 = some (Value.vdict md) → keysNoBad md) ∧
  (∀ md, dlookup "timestamps" e.2 = some (Value.vdict md) → keysNoBad md)

/-- A well-formed descriptor document: sanitized `data_keys` keys. -/
def descriptorDocOK (d : Doc) : Prop :=
  ∀ md, dlookup "data_keys" d = some (Value.vdict md) → keysNoBad md

theorem startKey_ne_stop {k : String} (h : pyStarts "start." k = true) :
    ¬ k = "stop.num_events" := by
  intro hh
  rw [hh] at h
  exact absurd h (by decide)

theorem dlookup_stop_none {m : List (String × Value)}
    (h : ∀ p ∈ m, pyStarts "start." p.1 = true) :
    dlookup "stop.num_events" m = none := by
  apply dlookup_eq_none_of_not_mem
  intro hmem
  rcases List.mem_map.mp hmem with ⟨p, hp, hp1⟩
  exact startKey_ne_stop (h p hp) hp1

theorem process_SPEC_char (ext : ExtFns) (fs : Fs) (cache : Option SpecDataFile) (ctr : Nat)
    (scan : ScanRec) (res : Option (List (String × Doc))) (c2 : Option SpecDataFile)
    (n2 : Nat) (scan2 : ScanRec)
    (h : process_SPEC_scan_data ext fs cache ctr scan = Except.ok (res, c2, n2, scan2)) :
    (res = none ∧ scan2 = scan) ∨
    (∃ ddoc evs m, scan.stream = some m ∧
      res = some (("descriptor", ddoc) :: evs) ∧
      scan2 = { scan with stream := some (dset m "stop.num_events" (Value.vnat evs.length)) } ∧
      (∀ e ∈ evs, eventDocOK e) ∧
      eventSeqs evs = List.range' 1 evs.length ∧
      descriptorDocOK ddoc) := by
  simp only [process_SPEC_scan_data] at h
  split at h
  · cases h
  · split at h
    · cases h
    · simp only [Except.ok.injEq, Prod.mk.injEq] at h
      obtain ⟨h1, _, _, h4⟩ := h
      exact Or.inl ⟨h1.symm, h4.symm⟩
    · rename_i sdf cache1 hopen
      split at h
      · cases h
      · split at h
        · cases h
        · rename_i ss hss
          split at h
          · simp only [Except.ok.injEq, Prod.mk.injEq] at h
            obtain ⟨h1, _, _, h4⟩ := h
            exact Or.inl ⟨h1.symm, h4.symm⟩
          · rename_i dataset hds
            split at h
            · cases h
            · rename_i m hm
              split at h
              · cases h
              · rename_i evs ctr2 hmk
                obtain ⟨hlen, hall, hseq⟩ :=
                  mk_events_char ext ss (ext.time_float ss.date) ctr dataset.length
                    (ctr + 1) 0 evs ctr2 hmk
                simp only [Except.ok.injEq, Prod.mk.injEq] at h
                obtain ⟨h1, _, _, h4⟩ := h
                refine Or.inr ⟨_, evs, m, hm, h1.symm, ?_, ?_, ?_, ?_⟩
                · rw [← h4, hlen]
                · intro e he
                  exact hall e he
                · rw [hlen]
                  simpa using hseq
                · intro md hmd
                  have : md = build_data_keys ss.data ss [] := by
                    rw [show dlookup "data_keys"
                      [("time", Value.vint (ext.time_float ss.date)), ("uid", Value.vnat ctr),
                       ("run_start", Value.vnat scan.uuid),
                       ("data_keys", Value.vdict (build_data_keys ss.data ss [])),
                       ("time_text", Value.vstr (ext.time_text (ext.time_float ss.date)))] =
                      some (Value.vdict (build_data_keys ss.data ss [])) from rfl] at hmd
                    cases hmd
                    rfl
                  rw [this]
                  exact build_data_keys_clean ss.data ss [] keysNoBad_nil

theorem hdf5_key_starts : pyStarts "start." "start.SPEC.hdf5_file" = true := by decide

theorem sidecar_hdf5_keys (ext : ExtFns) (ss : SpecScan) (v : Value) :
    ∀ p ∈ dset (baseSidecar ext ss) "start.SPEC.hdf5_file" v,
      pyStarts "start." p.1 = true := by
  intro p hp
  rcases mem_dset hp with h | h
  · exact baseSidecar_start_keys ext ss p h
  · rw [h]
    exact hdf5_key_starts

/-- Everything `parse_scan_data` can return with an `ok` outcome: the scan
record's identity fields are untouched; either no extraction happened (the
record is returned unchanged), or the `_stream_` sidecar was installed —
with only `start.`-prefixed keys plus possibly `stop.num_events`, no
duplicate keys — and the returned fragment is `[]` (image/fly/missing
column) with no `stop.num_events`, or a descriptor followed by events with
`stop.num_events` set to the event count. -/
theorem parse_char (ext : ExtFns) (fs : Fs) (cache : Option SpecDataFile) (ctr : Nat)
    (scan : ScanRec) (res : Option (List (String × Doc))) (c2 : Option SpecDataFile)
    (n2 : Nat) (scan2 : ScanRec)
    (h : parse_scan_data ext fs cache ctr scan = Except.ok (res, c2, n2, scan2)) :
    scan2.state = scan.state ∧ scan2.children = scan.children ∧ scan2.uuid = scan.uuid ∧
    ((res = none ∧ scan2 = scan) ∨
     (∃ m, scan2.stream = some m ∧
       (∀ p ∈ m, pyStarts "start." p.1 = true ∨ p.1 = "stop.num_events") ∧
       (m.map Prod.fst).Nodup ∧
       ((res = some [] ∧ dlookup "stop.num_events" m = none) ∨
        (∃ ddoc evs, res = some (("descriptor", ddoc) :: evs) ∧
          (∀ e ∈ evs, eventDocOK e) ∧
          eventSeqs evs = List.range' 1 evs.length ∧
          descriptorDocOK ddoc ∧
          dlookup "stop.num_events" m = some (Value.vnat evs.length))))) := by
  simp only [parse_scan_data] at h
  split at h
  · cases h
  · rename_i file hfile
    split at h
    · simp only [Except.ok.injEq, Prod.mk.injEq] at h
      obtain ⟨h1, _, _, h4⟩ := h
      subst h4
      exact ⟨rfl, rfl, rfl, Or.inl ⟨h1.symm, rfl⟩⟩
    · split at h
      · cases h
      · simp only [Except.ok.injEq, Prod.mk.injEq] at h
        obtain ⟨h1, _, _, h4⟩ := h
        subst h4
        exact ⟨rfl, rfl, rfl, Or.inl ⟨h1.symm, rfl⟩⟩
      · rename_i sdf cache1 hopen
        split at h
        · cases h
        · rename_i num hnum
          split at h
          · cases h
          · rename_i ss hss
            split at h
            · cases h
            · rename_i mname restToks hwords
              split at h
              · -- image-only macro branch
                split at h
                · cases h
                · rename_i arg args hrest
                  simp only [Except.ok.injEq, Prod.mk.injEq] at h
                  obtain ⟨h1, _, _, h4⟩ := h
                  subst h4
                  refine ⟨rfl, rfl, rfl, Or.inr ⟨_, rfl, ?_, ?_, Or.inl ⟨h1.symm, ?_⟩⟩⟩
                  · intro p hp
                    exact Or.inl (sidecar_hdf5_keys ext ss _ p hp)
                  · exact nodup_keys_dset _ _ (baseSidecar_nodup ext ss)
                  · exact dlookup_stop_none (sidecar_hdf5_keys ext ss _)
              · split at h
                · -- fly-scan branch
                  split at h
                  · rename_i path hpath
                    simp only [Except.ok.injEq, Prod.mk.injEq] at h
                    obtain ⟨h1, _, _, h4⟩ := h
                    subst h4
                    refine ⟨rfl, rfl, rfl, Or.inr ⟨_, rfl, ?_, ?_, Or.inl ⟨h1.symm, ?_⟩⟩⟩
                    · intro p hp
                      exact Or.inl (sidecar_hdf5_keys ext ss _ p hp)
                    · exact nodup_keys_dset _ _ (baseSidecar_nodup ext ss)
                    · exact dlookup_stop_none (sidecar_hdf5_keys ext ss _)
                  · simp only [Except.ok.injEq, Prod.mk.injEq] at h
                    obtain ⟨h1, _, _, h4⟩ := h
                    subst h4
                    refine ⟨rfl, rfl, rfl, Or.inr ⟨_, rfl, ?_, baseSidecar_nodup ext ss,
                      Or.inl ⟨h1.symm, dlookup_stop_none (baseSidecar_start_keys ext ss)⟩⟩⟩
                    intro p hp
                    exact Or.inl (baseSidecar_start_keys ext ss p hp)
                · -- step-scan branch
                  split at h
                  · cases h
                  · rename_i cache2 ctr2 scan3 hproc
                    rcases process_SPEC_char ext fs cache1 ctr _ _ _ _ _ hproc with
                      ⟨_, hs3⟩ | ⟨ddoc, evs, m0, hm0, hres, _, _, _, _⟩
                    · simp only [Except.ok.injEq, Prod.mk.injEq] at h
                      obtain ⟨h1, _, _, h4⟩ := h
                      subst h4
                      subst hs3
                      refine ⟨rfl, rfl, rfl, Or.inr ⟨_, rfl, ?_, baseSidecar_nodup ext ss,
                        Or.inl ⟨h1.symm, dlookup_stop_none (baseSidecar_start_keys ext ss)⟩⟩⟩
                      intro p hp
                      exact Or.inl (baseSidecar_start_keys ext ss p hp)
                    · cases hres
                  · rename_i l cache2 ctr2 scan3 hproc
                    rcases process_SPEC_char ext fs cache1 ctr _ _ _ _ _ hproc with
                      ⟨hres, _⟩ | ⟨ddoc, evs, m0, hm0, hres, hs3, hevs, hseq, hdesc⟩
                    · cases hres
                    · simp only [Except.ok.injEq, Prod.mk.injEq] at h
                      obtain ⟨h1, _, _, h4⟩ := h
                      subst h4
                      subst hs3
                      have hm0' : m0 = baseSidecar ext ss := by
                        have := hm0
                        simp only [Option.some.injEq] at this
                        exact this.symm
                      subst hm0'
                      cases hres
                      refine ⟨rfl, rfl, rfl, Or.inr ⟨_, rfl, ?_, ?_, Or.inr
                        ⟨ddoc, evs, h1.symm, hevs, hseq, hdesc, dlookup_dset_self _ _ _⟩⟩⟩
                      · intro p hp
                        rcases mem_dset hp with hp' | hp'
                        · exact Or.inl (baseSidecar_start_keys ext ss p hp')
                        · rw [hp']
                          exact Or.inr rfl
                      · exact nodup_keys_dset _ _ (baseSidecar_nodup ext ss)

/-! ## Counting document kinds -/

theorem countKind_cons (e : String × Doc) (l : List (String × Doc)) (k : String) :
    countKind (e :: l) k = (if e.1 = k then 1 else 0) + countKind l k := by
  unfold countKind
  rw [List.filter_cons]
  split <;> rename_i hd
  · simp only [decide_eq_true_eq] at hd
    simp [hd, List.length_cons, Nat.add_comm]
  · simp only [decide_eq_true_eq] at hd
    simp [hd]

theorem countKind_append (l1 l2 : List (String × Doc)) (k : String) :
    countKind (l1 ++ l2) k = countKind l1 k + countKind l2 k := by
  simp [countKind, List.filter_append]

theorem countKind_eq_zero_of {l : List (String × Doc)} {k : String}
    (h : ∀ e ∈ l, ¬ e.1 = k) : countKind l k = 0 := by
  induction l with
  | nil => rfl
  | cons e rest ih =>
    rw [countKind_cons, if_neg (h e (List.mem_cons_self _ _)),
      ih (fun e he => h e (List.mem_cons_of_mem _ he))]

theorem countKind_eq_length_of {l : List (String × Doc)} {k : String}
    (h : ∀ e ∈ l, e.1 = k) : countKind l k = l.length := by
  induction l with
  | nil => rfl
  | cons e rest ih =>
    rw [countKind_cons, if_pos (h e (List.mem_cons_self _ _)),
      ih (fun e he => h e (List.mem_cons_of_mem _ he))]
    simp [Nat.add_comm]

theorem eventSeqs_append (l1 l2 : List (String × Doc)) :
    eventSeqs (l1 ++ l2) = eventSeqs l1 ++ eventSeqs l2 := by
  simp [eventSeqs, List.filterMap_append]

theorem eventSeqs_cons_ne {e : String × Doc} {l : List (String × Doc)}
    (h : ¬ e.1 = "event") : eventSeqs (e :: l) = eventSeqs l := by
  simp [eventSeqs, List.filterMap_cons, h]

/-- C1: for every scan record the Document Builder processes successfully,
the per-scan document list begins with exactly one `start` document; unless
the record's state is "unknown" it ends with exactly one `stop` document
(for "unknown" no `stop` is emitted at all); every other document in the
list is a `descriptor` or an `event`, so events sit strictly between the
`start` and the `stop`; and the event `seq_num`s are exactly 1, 2, 3, …
in order. -/
theorem spec_C1_document_order (ext : ExtFns) (fs : Fs) (cache : Option SpecDataFile)
    (ctr : Nat) (scan : ScanRec) (docs : List (String × Doc))
    (c2 : Option SpecDataFile) (n2 : Nat)
    (h : process_one_scan ext fs cache ctr scan = Except.ok (docs, c2, n2)) :
    docs.head?.map Prod.fst = some "start" ∧
    countKind docs "start" = 1 ∧
    (scan.state = some "unknown" → countKind docs "stop" = 0) ∧
    (scan.state ≠ some "unknown" →
      countKind docs "stop" = 1 ∧
      ∃ s d mid, docs = ("start", s) :: mid ++ [("stop", d)] ∧
        ∀ e ∈ mid, e.1 = "descriptor" ∨ e.1 = "event") ∧
    eventSeqs docs = List.range' 1 (eventSeqs docs).length := by
  simp only [process_one_scan] at h
  split at h
  · cases h
  · rename_i ds cache1 ctr1 scan1 hparse
    split at h
    · cases h
    · rename_i start hstart
      split at h
      · cases h
      · rename_i stopd ctr2 hstop
        simp only [Except.ok.injEq, Prod.mk.injEq] at h
        obtain ⟨h1, hc2, hn2⟩ := h
        obtain ⟨hstate1, _, _, hbranch⟩ := parse_char ext fs cache ctr scan ds cache1
          ctr1 scan1 hparse
        have hiff := make_stop_none_iff ext ctr1 scan1 stopd ctr2 hstop
        rw [hstate1] at hiff
        have hmid : (∀ e ∈ ds.getD [], e.1 = "descriptor" ∨ e.1 = "event") ∧
            eventSeqs (ds.getD []) =
              List.range' 1 (eventSeqs (ds.getD [])).length := by
          rcases hbranch with ⟨hds, _⟩ | ⟨m, _, _, _, hcase⟩
          · subst hds
            exact ⟨fun e he => absurd he (List.not_mem_nil e), rfl⟩
          · rcases hcase with ⟨hds, _⟩ | ⟨ddoc, evs, hds, hevs, hseq, _, _⟩
            · subst hds
              exact ⟨fun e he => absurd he (List.not_mem_nil e), rfl⟩
            · subst hds
              constructor
              · intro e he
                rcases List.mem_cons.mp he with he | he
                · subst he
                  exact Or.inl rfl
                · exact Or.inr (hevs e he).1
              · rw [show (some (("descriptor", ddoc) :: evs)).getD [] =
                    ("descriptor", ddoc) :: evs from rfl]
                rw [eventSeqs_cons_ne (show ¬("descriptor" : String) = "event" by decide),
                  hseq, List.length_range']
        obtain ⟨hmidk, hmids⟩ := hmid
        have hz : ∀ kk : String, ¬ kk = "descriptor" → ¬ kk = "event" →
            countKind (ds.getD []) kk = 0 := by
          intro kk hk1 hk2
          apply countKind_eq_zero_of
          intro e he
          rcases hmidk e he with hk | hk <;> rw [hk]
          · intro hh
            exact hk1 hh.symm
          · intro hh
            exact hk2 hh.symm
        cases stopd with
        | none =>
          have hunk : scan.state = some "unknown" := hiff.mp rfl
          subst h1
          refine ⟨rfl, ?_, ?_, ?_, ?_⟩
          · rw [countKind_cons, countKind_append, hz "start" (by decide) (by decide)]
            simp [countKind]
          · intro _
            rw [countKind_cons, countKind_append, hz "stop" (by decide) (by decide)]
            simp [countKind]
          · intro hne
            exact absurd hunk hne
          · rw [eventSeqs_cons_ne (show ¬("start" : String) = "event" by decide),
              eventSeqs_append, show eventSeqs ([] : List (String × Doc)) = [] from rfl,
              List.append_nil]
            exact hmids
        | some d =>
          have hne : scan.state ≠ some "unknown" := by
            intro hh
            exact absurd (hiff.mpr hh) (by simp)
          subst h1
          refine ⟨rfl, ?_, ?_, ?_, ?_⟩
          · rw [countKind_cons, countKind_append, hz "start" (by decide) (by decide)]
            simp [countKind]
          · intro hh
            exact absurd hh hne
          · intro _
            constructor
            · rw [countKind_cons, countKind_append, hz "stop" (by decide) (by decide)]
              simp [countKind]
            · exact ⟨start, d, ds.getD [], rfl, hmidk⟩
          · rw [eventSeqs_cons_ne (show ¬("start" : String) = "event" by decide),
              eventSeqs_append, show eventSeqs [("stop", d)] = [] from rfl,
              List.append_nil]
            exact hmids

/-- C2: whenever a scan's `stop` document carries a `num_events` field,
its value equals the number of `event` documents emitted for that scan.
The hypothesis `scan.stream = none` says the record comes fresh from the
Scan Registry Loader (which never pre-populates the `_stream_` sidecar). -/
theorem spec_C2_num_events (ext : ExtFns) (fs : Fs) (cache : Option SpecDataFile)
    (ctr : Nat) (scan : ScanRec) (docs : List (String × Doc))
    (c2 : Option SpecDataFile) (n2 : Nat)
    (h : process_one_scan ext fs cache ctr scan = Except.ok (docs, c2, n2))
    (h0 : scan.stream = none) :
    ∀ sd v, ("stop", sd) ∈ docs → dlookup "num_events" sd = some v →
      v = Value.vnat (countKind docs "event") := by
  simp only [process_one_scan] at h
  split at h
  · cases h
  · rename_i ds cache1 ctr1 scan1 hparse
    split at h
    · cases h
    · rename_i start hstart
      split at h
      · cases h
      · rename_i stopd ctr2 hstop
        simp only [Except.ok.injEq, Prod.mk.injEq] at h
        obtain ⟨h1, hc2, hn2⟩ := h
        subst h1
        intro sd v hmem hv
        obtain ⟨hstate1, _, _, hbranch⟩ := parse_char ext fs cache ctr scan ds cache1
          ctr1 scan1 hparse
        have hmidk : ∀ e ∈ ds.getD [], e.1 = "descriptor" ∨ e.1 = "event" := by
          rcases hbranch with ⟨hds, _⟩ | ⟨m, _, _, _, hcase⟩
          · subst hds
            exact fun e he => absurd he (List.not_mem_nil e)
          · rcases hcase with ⟨hds, _⟩ | ⟨ddoc, evs, hds, hevs, _, _, _⟩
            · subst hds
              exact fun e he => absurd he (List.not_mem_nil e)
            · subst hds
              intro e he
              rcases List.mem_cons.mp he with he | he
              · subst he
                exact Or.inl rfl
              · exact Or.inr (hevs e he).1
        rcases List.mem_cons.mp hmem with heq | hmem'
        · exact absurd (show ("stop" : String) = "start" from congrArg Prod.fst heq)
            (by decide)
        · rcases List.mem_append.mp hmem' with hmemm | hmems
          · rcases hmidk _ hmemm with hk | hk
            · exact absurd (show ("stop" : String) = "descriptor" from hk) (by decide)
            · exact absurd (show ("stop" : String) = "event" from hk) (by decide)
          · cases stopd with
            | none => exact absurd hmems (List.not_mem_nil _)
            | some d =>
              have hsd : sd = d := congrArg Prod.snd (List.mem_singleton.mp hmems)
              subst hsd
              rcases hbranch with ⟨hds, hscan1⟩ | ⟨m, hstream1, hmkeys, hmnd, hcase⟩
              · have hnone := make_stop_num_events_none ext ctr1 scan1 sd ctr2
                  (by rw [hscan1]; exact h0) hstop
                rw [hnone] at hv
                cases hv
              · have hlk := make_stop_num_events_sidecar ext ctr1 scan1 sd ctr2 m
                  hstream1 hmkeys hmnd hstop
                rcases hcase with ⟨hds, hnonek⟩ | ⟨ddoc, evs, hds, hevs, hseq, hdesc, hsomek⟩
                · rw [hlk, hnonek] at hv
                  cases hv
                · rw [hlk, hsomek] at hv
                  injection hv with hv2
                  subst hv2
                  subst hds
                  simp [countKind_cons, countKind_append, countKind]
                  exact (countKind_eq_length_of (fun e he => (hevs e he).1)).symm

/-- C5: every key of the `data` and `timestamps` maps of every emitted
`event` document, and every key of a descriptor's `data_keys`, is
sanitized — `cleanup_name` leaves no comma, period, space or hyphen in any
name, and in particular "H K L" becomes "H_K_L". -/
theorem spec_C5_sanitized_keys :
    (∀ k : String, noBad (cleanup_name k)) ∧
    cleanup_name "H K L" = "H_K_L" ∧
    (∀ (ext : ExtFns) (fs : Fs) (cache : Option SpecDataFile) (ctr : Nat) (scan : ScanRec)
        (docs : List (String × Doc)) (c2 : Option SpecDataFile) (n2 : Nat),
      process_one_scan ext fs cache ctr scan = Except.ok (docs, c2, n2) →
      (∀ d, ("event", d) ∈ docs →
        (∀ md, dlookup "data" d = some (Value.vdict md) → keysNoBad md) ∧
        (∀ md, dlookup "timestamps" d = some (Value.vdict md) → keysNoBad md)) ∧
      (∀ d, ("descriptor", d) ∈ docs → descriptorDocOK d)) := by
  refine ⟨cleanup_name_noBad, cleanup_name_HKL, ?_⟩
  intro ext fs cache ctr scan docs c2 n2 h
  simp only [process_one_scan] at h
  split at h
  · cases h
  · rename_i ds cache1 ctr1 scan1 hparse
    split at h
    · cases h
    · rename_i start hstart
      split at h
      · cases h
      · rename_i stopd ctr2 hstop
        simp only [Except.ok.injEq, Prod.mk.injEq] at h
        obtain ⟨h1, hc2, hn2⟩ := h
        subst h1
        obtain ⟨_, _, _, hbranch⟩ := parse_char ext fs cache ctr scan ds cache1
          ctr1 scan1 hparse
        constructor
        · intro d hmem
          rcases List.mem_cons.mp hmem with heq | hmem'
          · exact absurd (show ("event" : String) = "start" from congrArg Prod.fst heq)
              (by decide)
          · rcases List.mem_append.mp hmem' with hmemm | hmems
            · rcases hbranch with ⟨hds, _⟩ | ⟨m, _, _, _, hcase⟩
              · subst hds
                exact absurd hmemm (List.not_mem_nil _)
              · rcases hcase with ⟨hds, _⟩ | ⟨ddoc, evs, hds, hevs, _, _, _⟩
                · subst hds
                  exact absurd hmemm (List.not_mem_nil _)
                · subst hds
                  rcases List.mem_cons.mp hmemm with heq | hmemm'
                  · exact absurd
                      (show ("event" : String) = "descriptor" from congrArg Prod.fst heq)
                      (by decide)
                  · obtain ⟨_, h2, h3⟩ := hevs _ hmemm'
                    exact ⟨h2, h3⟩
            · cases stopd with
              | none => exact absurd hmems (List.not_mem_nil _)
              | some d0 =>
                exact absurd
                  (show ("event" : String) = "stop" from
                    congrArg Prod.fst (List.mem_singleton.mp hmems))
                  (by decide)
        · intro d hmem
          rcases List.mem_cons.mp hmem with heq | hmem'
          · exact absurd (show ("descriptor" : String) = "start" from congrArg Prod.fst heq)
              (by decide)
          · rcases List.mem_append.mp hmem' with hmemm | hmems
            · rcases hbranch with ⟨hds, _⟩ | ⟨m, _, _, _, hcase⟩
              · subst hds
                exact absurd hmemm (List.not_mem_nil _)
              · rcases hcase with ⟨hds, _⟩ | ⟨ddoc, evs, hds, hevs, _, hdesc, _⟩
                · subst hds
                  exact absurd hmemm (List.not_mem_nil _)
                · subst hds
                  rcases List.mem_cons.mp hmemm with heq | hmemm'
                  · have hd : d = ddoc := congrArg Prod.snd heq
                    subst hd
                    exact hdesc
                  · exact absurd
                      (show ("descriptor" : String) = "event" from (hevs _ hmemm').1)
                      (by decide)
            · cases stopd with
              | none => exact absurd hmems (List.not_mem_nil _)
              | some d0 =>
                exact absurd
                  (show ("descriptor" : String) = "stop" from
                    congrArg Prod.fst (List.mem_singleton.mp hmems))
                  (by decide)

/-! ## Exit-status mapping (C3) -/

theorem make_stop_err (ext : ExtFns) (ctr : Nat) (s : ScanRec)
    (h1 : ¬ s.state = some "unknown") (h2 : exitStatus s.state = none) :
    ∃ e, make_stop_document ext ctr s = Except.error e := by
  simp only [make_stop_document]
  rw [if_neg h1]
  cases hs : dlookup "started" s.children with
  | none => exact ⟨_, rfl⟩
  | some st =>
    rw [h2]
    exact ⟨_, rfl⟩

theorem process_one_scan_stop_err (ext : ExtFns) (fs : Fs) (cache : Option SpecDataFile)
    (ctr : Nat) (scan : ScanRec)
    (h1 : ¬ scan.state = some "unknown") (h2 : exitStatus scan.state = none) :
    ∃ e, process_one_scan ext fs cache ctr scan = Except.error e := by
  have hnots : ∀ docs c2 n2,
      process_one_scan ext fs cache ctr scan ≠ Except.ok (docs, c2, n2) := by
    intro docs c2 n2 hok
    simp only [process_one_scan] at hok
    split at hok
    · cases hok
    · rename_i ds cache1 ctr1 scan1 hparse
      split at hok
      · cases hok
      · split at hok
        · cases hok
        · rename_i stopd ctr2 hstop
          obtain ⟨hstate1, _, _, _⟩ := parse_char ext fs cache ctr scan ds cache1
            ctr1 scan1 hparse
          obtain ⟨e, he⟩ := make_stop_err ext ctr1 scan1
            (by rw [hstate1]; exact h1) (by rw [hstate1]; exact h2)
          rw [he] at hstop
          cases hstop
  cases hres : process_one_scan ext fs cache ctr scan with
  | error e => exact ⟨e, rfl⟩
  | ok out => exact absurd hres (hnots out.1 out.2.1 out.2.2)

/-- C3 (amended): when building the `stop` document, `exit_status` is
"success" for state "complete" and "aborted" for state "scanning"; any
other state value (or a missing state) makes construction fail with an
error and no silent default — and that error propagates out of document
stream construction, aborting the whole remaining run, not only that
scan's own `stop` document. -/
theorem spec_C3_exit_status_amended (ext : ExtFns) (ctr : Nat) (scan : ScanRec) :
    (∀ s, scan.state = some s → ¬ s = "unknown" → ¬ s = "complete" → ¬ s = "scanning" →
      ∃ e, make_stop_document ext ctr scan = Except.error e) ∧
    (scan.state = none → ∃ e, make_stop_document ext ctr scan = Except.error e) ∧
    (∀ t, scan.stream = none → dlookup "started" scan.children = some t →
      (scan.state = some "complete" →
        ∃ d, make_stop_document ext ctr scan = Except.ok (some d, ctr + 1) ∧
          dlookup "exit_status" d = some (Value.vstr "success")) ∧
      (scan.state = some "scanning" →
        ∃ d, make_stop_document ext ctr scan = Except.ok (some d, ctr + 1) ∧
          dlookup "exit_status" d = some (Value.vstr "aborted"))) ∧
    (∀ (fs : Fs) (cache : Option SpecDataFile) (s : String) (rest : List ScanRec),
      scan.state = some s → ¬ s = "unknown" → ¬ s = "complete" → ¬ s = "scanning" →
      ∃ e, make_document_stream ext fs cache ctr (scan :: rest) = Except.error e) := by
  refine ⟨?_, ?_, ?_, ?_⟩
  · intro s hs h1 h2 h3
    apply make_stop_err
    · intro hh
      rw [hs] at hh
      exact h1 (Option.some.injEq _ _ ▸ hh)
    · rw [hs]
      simp [exitStatus, h2, h3]
  · intro hs
    apply make_stop_err
    · rw [hs]
      simp
    · rw [hs]
      rfl
  · intro t hstream ht
    constructor
    · intro hs
      simp only [make_stop_document, hs]
      rw [if_neg (by simp), ht]
      simp only [add_event_metadata, hstream]
      exact ⟨_, rfl, rfl⟩
    · intro hs
      simp only [make_stop_document, hs]
      rw [if_neg (by simp), ht]
      simp only [add_event_metadata, hstream]
      exact ⟨_, rfl, rfl⟩
  · intro fs cache s rest hs h1 h2 h3
    obtain ⟨e, he⟩ := process_one_scan_stop_err ext fs cache ctr scan
      (by rw [hs]; intro hh; exact h1 (Option.some.injEq _ _ ▸ hh))
      (by rw [hs]; simp [exitStatus, h2, h3])
    refine ⟨e, ?_⟩
    simp only [make_document_stream]
    rw [he]

/-! ## Concrete inputs for counterexamples and witnesses -/

/-- A trivial instantiation of the external parsing collaborators. -/
def ext0 : ExtFns :=
  { time_float := fun _ => 0, time_text := fun _ => "", parse_float := fun _ => 0 }

/-- A log record whose state is the unmapped value "failed". -/
def scanBad : ScanRec :=
  { xml_filename := "2014-scanlog.xml"
    xml_id := "9:/share1/USAXS_data/a.dat"
    uuid := 0
    number := some "9"
    state := some "failed"
    ty := some "uascan"
    children := [("file", "/share1/USAXS_data/a.dat"),
                 ("started", "2014-10-13 22:08:08"), ("title", "t9")]
    stream := none }

/-- A well-formed completed log record following `scanBad` in the registry. -/
def scanGood : ScanRec :=
  { xml_filename := "2014-scanlog.xml"
    xml_id := "10:/share1/USAXS_data/a.dat"
    uuid := 1
    number := some "10"
    state := some "complete"
    ty := some "uascan"
    children := [("file", "/share1/USAXS_data/a.dat"),
                 ("started", "2014-10-13 22:10:26"), ("title", "t10")]
    stream := none }

/-- C3 counterexample: with two scans in the registry, the first in the
unmapped state "failed", the whole run aborts with the KeyError — no
documents are emitted for the second scan, although the second scan on its
own is processed fine.  So the failure is not confined to the offending
scan's `stop` document. -/
theorem spec_C3_counterexample :
    make_document_stream ext0 [] none 0 [scanBad, scanGood] =
      Except.error "KeyError: failed" ∧
    (∃ docs c2 n2, process_one_scan ext0 [] none 0 scanGood =
      Except.ok (docs, c2, n2)) := by
  constructor
  · rfl
  · exact ⟨_, _, _, rfl⟩

/-- A one-row step scan whose data columns lack the elapsed-time column
"Epoch" (only a motor column "m"). -/
def ssC4 : SpecScan :=
  { date := "2014-10-13"
    scanCmd := "uascan x 0 1 1"
    comments := []
    data := [("m", [0])]
    column_first := "m"
    positioner := []
    metadata := []
    positioner_xref := []
    counter_xref := []
    T := none
    M := none }

/-- A filesystem holding one valid SPEC file containing `ssC4` as scan 1. -/
def fsC4 : Fs := [("/share1/USAXS_data/c4.dat", FsFile.valid [("1", ssC4)])]

/-- The log record pointing at `fsC4`'s file, scan 1. -/
def scanC4 : ScanRec :=
  { xml_filename := "2014-scanlog.xml"
    xml_id := "1:/share1/USAXS_data/c4.dat"
    uuid := 0
    number := some "1"
    state := some "complete"
    ty := some "uascan"
    children := [("file", "/share1/USAXS_data/c4.dat"),
                 ("started", "2014-10-13 22:08:08"), ("title", "t1")]
    stream := none }

/-- C4 (code bug): for a step scan with data rows but no "Epoch" column,
`spec_scan.data.get("Epoch", 0)[i]` subscripts the int default `0`, so the
run aborts with a TypeError instead of defaulting the elapsed time to 0 as
the `.get(..., 0)` default clearly intends. -/
theorem spec_C4_epoch_missing_typeerror :
    process_one_scan ext0 fsC4 none 0 scanC4 =
      Except.error "TypeError: int object is not subscriptable" := by rfl

/-- Per-scan decomposition of the document stream: a scan whose processing
succeeds contributes its batch in front of the remaining scans' stream. -/
theorem make_document_stream_cons (ext : ExtFns) (fs : Fs) (cache : Option SpecDataFile)
    (ctr : Nat) (scan : ScanRec) (rest : List ScanRec) (docs : List (String × Doc))
    (cache1 : Option SpecDataFile) (ctr1 : Nat)
    (h : process_one_scan ext fs cache ctr scan = Except.ok (docs, cache1, ctr1)) :
    make_document_stream ext fs cache ctr (scan :: rest) =
      Except.map (fun r => docs ++ r) (make_document_stream ext fs cache1 ctr1 rest) := by
  simp only [make_document_stream]
  rw [h]
  have hx : ∀ x : Except String (List (String × Doc)),
      (match x with
       | Except.error e => Except.error e
       | Except.ok docs2 => Except.ok (docs ++ docs2)) =
      Except.map (fun r => docs ++ r) x := by
    intro x
    cases x <;> rfl
  exact hx _

/-- C8: a scan whose data file path does not exist, or exists but is not a
valid SPEC file, still yields exactly its `start` and `stop` documents
(built from log data alone), extraction returns no documents and raises no
error, the nonexistent-path case leaves the measurement-source cache
untouched (no open is attempted), and the stream construction continues
over the remaining scans. -/
theorem spec_C8_missing_datafile_recoverable (ext : ExtFns) (fs : Fs)
    (cache : Option SpecDataFile) (ctr : Nat) (scan : ScanRec) (p st ti : String)
    (hfile : dlookup "file" scan.children = some p)
    (hfs : dlookup p fs = none ∨ dlookup p fs = some FsFile.invalid)
    (hcache : ∀ o, cache = some o → ¬ o.fileName = p)
    (hst : dlookup "started" scan.children = some st)
    (hti : dlookup "title" scan.children = some ti)
    (hstream : scan.stream = none)
    (hstate : scan.state = some "complete" ∨ scan.state = some "scanning") :
    ∃ sd td cache2,
      process_one_scan ext fs cache ctr scan =
        Except.ok ([("start", sd), ("stop", td)], cache2, ctr + 1) ∧
      (dlookup p fs = none → cache2 = cache) ∧
      ∀ rest, make_document_stream ext fs cache ctr (scan :: rest) =
        Except.map (fun r => [("start", sd), ("stop", td)] ++ r)
          (make_document_stream ext fs cache2 (ctr + 1) rest) := by
  have hparse : ∃ cache2, parse_scan_data ext fs cache ctr scan =
      Except.ok (none, cache2, ctr, scan) ∧ (dlookup p fs = none → cache2 = cache) := by
    rcases hfs with hnone | hinv
    · refine ⟨cache, ?_, fun _ => rfl⟩
      simp [parse_scan_data, hfile, hnone]
    · have hopen : openSpecDataFile fs cache p = Except.ok (none, none) := by
        cases cache with
        | none => simp [openSpecDataFile, hinv]
        | some o =>
          have hno : ¬ o.fileName = p := hcache o rfl
          simp [openSpecDataFile, hinv, hno]
      refine ⟨none, ?_, fun hh => by rw [hinv] at hh; cases hh⟩
      simp [parse_scan_data, hfile, hinv, hopen]
  obtain ⟨cache2, hp, hcc⟩ := hparse
  have hsd : ∃ sd, make_start_document ext scan = Except.ok sd := by
    simp only [make_start_document, hst, hfile, hti, add_event_metadata, hstream]
    exact ⟨_, rfl⟩
  obtain ⟨sd, hsdoc⟩ := hsd
  have htd : ∃ td, make_stop_document ext ctr scan = Except.ok (some td, ctr + 1) := by
    rcases hstate with hsc | hsc <;>
    · simp only [make_stop_document, hsc]
      rw [if_neg (by simp), hst]
      simp only [add_event_metadata, hstream]
      exact ⟨_, rfl⟩
  obtain ⟨td, htdoc⟩ := htd
  have hpo : process_one_scan ext fs cache ctr scan =
      Except.ok ([("start", sd), ("stop", td)], cache2, ctr + 1) := by
    simp only [process_one_scan, hp, hsdoc, htdoc]
    rfl
  exact ⟨sd, td, cache2, hpo, hcc,
    fun rest => make_document_stream_cons ext fs cache ctr scan rest _ _ _ hpo⟩

/-- C10: any non-empty first command token that is a substring of the
string "FlyScan" (and not an image-only macro name) sends the scan down
the fly-scan branch — no descriptor or event documents are produced (the
extracted fragment is `[]`) and the `FlyScan file name = ` comment marker,
when present, supplies `start.SPEC.hdf5_file` — because the dispatch tests
`macro_name in ('FlyScan')`, substring membership in a string rather than
membership in a one-element tuple. -/
theorem spec_C10_flyscan_substring_dispatch (ext : ExtFns) (fs : Fs) (ctr : Nat)
    (scan : ScanRec) (p num : String) (scs : List (String × SpecScan)) (ss : SpecScan)
    (t : String) (restToks : List String)
    (hfile : dlookup "file" scan.children = some p)
    (hfs : dlookup p fs = some (FsFile.valid scs))
    (hnum : scan.number = some num)
    (hscan : dlookup num scs = some ss)
    (hcmd : pyWords ss.scanCmd = t :: restToks)
    (hne : ¬ t = "")
    (hsub : strIn t "FlyScan" = true)
    (himg : t ∉ imageMacros) :
    ∃ scan2, parse_scan_data ext fs none ctr scan =
      Except.ok (some [], some ⟨p, scs⟩, ctr, scan2) ∧
      ∀ path, flyscan_hdf5 ss.comments = some path →
        ∃ m, scan2.stream = some m ∧
          dlookup "start.SPEC.hdf5_file" m = some (Value.vstr path) := by
  have hopen : openSpecDataFile fs none p =
      Except.ok (some ⟨p, scs⟩, some ⟨p, scs⟩) := by
    simp [openSpecDataFile, hfs]
  cases hfly : flyscan_hdf5 ss.comments with
  | some path0 =>
    refine ⟨setStream { scan with stream := some (baseSidecar ext ss) }
      "start.SPEC.hdf5_file" (Value.vstr path0), ?_, ?_⟩
    · simp [parse_scan_data, hfile, hfs, hopen, hnum, hscan, hcmd, himg, hsub, hfly]
    · intro path hp
      injection hp with hp
      subst hp
      exact ⟨_, rfl, dlookup_dset_self _ _ _⟩
  | none =>
    refine ⟨{ scan with stream := some (baseSidecar ext ss) }, ?_, ?_⟩
    · simp [parse_scan_data, hfile, hfs, hopen, hnum, hscan, hcmd, himg, hsub, hfly]
    · intro path hp
      cases hp

/-! ## Provenance resolution order (C9) -/

/-- The resolver's lookup tables in decreasing order of specificity, each
paired with its tag: direct positioner listing, positioner name
cross-reference, positioner mnemonic cross-reference, counter name
cross-reference, counter mnemonic cross-reference. -/
def resolutionRules (ss : SpecScan) : List ((String → Bool) × String) :=
  [(fun k => ss.positioner.any (fun p => p.1 == k), "SPEC positioner"),
   (fun k => ss.positioner_xref.any (fun p => p.2 == k), "SPEC positioner name"),
   (fun k => ss.positioner_xref.any (fun p => p.1 == k), "SPEC positioner mnemonic"),
   (fun k => ss.counter_xref.any (fun p => p.2 == k), "SPEC counter name"),
   (fun k => ss.counter_xref.any (fun p => p.1 == k), "SPEC counter mnemonic")]

/-- Modelled from the spec's words: classify by scanning the ordered rule
table, first match wins, with the raw-value tag as fallback. -/
def classifyFirstMatch (k : String) (ss : SpecScan) : String :=
  match (resolutionRules ss).find? (fun r => r.1 k) with
  | some r => r.2
  | none => "SPEC value"

/-- C9: the Provenance Resolver's if-chain equals first-match scanning of
the ordered table of lookups ending in the raw-value fallback. -/
theorem spec_C9_resolution_order (k : String) (ss : SpecScan) :
    determine_data_source k ss = classifyFirstMatch k ss := by
  simp only [determine_data_source, classifyFirstMatch, resolutionRules]
  cases h1 : ss.positioner.any (fun p => p.1 == k) <;>
    cases h2 : ss.positioner_xref.any (fun p => p.2 == k) <;>
      cases h3 : ss.positioner_xref.any (fun p => p.1 == k) <;>
        cases h4 : ss.counter_xref.any (fun p => p.2 == k) <;>
          cases h5 : ss.counter_xref.any (fun p => p.1 == k) <;>
            simp [List.find?, h1, h2, h3, h4, h5]

/-! ## Registry loading (C6, C7) -/

/-- The `id` attribute values of a node list, in order. -/
def nodeIds (nodes : List ScanNode) : List String :=
  nodes.filterMap (fun nd => dlookup "id" nd.attrs)

/-- Load the same scan-log file into an empty registry twice. -/
def load_twice (fname : String) (nodes : List ScanNode) : ScanDb × Nat × Option String :=
  read_xml_file fname nodes (read_xml_file fname nodes [] 0).1
    (read_xml_file fname nodes [] 0).2.1

theorem rxn_err_none (fname : String) :
    ∀ (nodes : List ScanNode) (i : Nat) (db : ScanDb) (ctr : Nat),
      (∀ nd ∈ nodes, (dlookup "id" nd.attrs).isSome) →
      (read_xml_nodes fname nodes i db ctr).2.2 = none := by
  intro nodes
  induction nodes with
  | nil => intro i db ctr _; rfl
  | cons nd rest ih =>
    intro i db ctr hids
    have h0 := hids nd (List.mem_cons_self _ _)
    cases hsid : dlookup "id" nd.attrs with
    | none => rw [hsid] at h0; simp at h0
    | some sid =>
      simp only [read_xml_nodes, hsid]
      exact ih _ _ _ (fun nd' hh => hids nd' (List.mem_cons_of_mem _ hh))

theorem rxn_keys (fname : String) :
    ∀ (nodes : List ScanNode) (i : Nat) (db : ScanDb) (ctr : Nat),
      (∀ nd ∈ nodes, (dlookup "id" nd.attrs).isSome) →
      ∀ k : String, k ∈ (read_xml_nodes fname nodes i db ctr).1.map Prod.fst ↔
        k ∈ db.map Prod.fst ∨ k ∈ nodeIds nodes := by
  intro nodes
  induction nodes with
  | nil => intro i db ctr _ k; simp [read_xml_nodes, nodeIds]
  | cons nd rest ih =>
    intro i db ctr hids k
    have h0 := hids nd (List.mem_cons_self _ _)
    cases hsid : dlookup "id" nd.attrs with
    | none => rw [hsid] at h0; simp at h0
    | some sid =>
      simp only [read_xml_nodes, hsid]
      rw [ih _ _ _ (fun nd' hh => hids nd' (List.mem_cons_of_mem _ hh)) k]
      rw [mem_keys_dset]
      have hnid : nodeIds (nd :: rest) = sid :: nodeIds rest := by
        simp [nodeIds, List.filterMap_cons, hsid]
      rw [hnid]
      simp only [List.mem_cons]
      tauto

theorem rxn_nodup (fname : String) :
    ∀ (nodes : List ScanNode) (i : Nat) (db : ScanDb) (ctr : Nat),
      (db.map Prod.fst).Nodup →
      ((read_xml_nodes fname nodes i db ctr).1.map Prod.fst).Nodup := by
  intro nodes
  induction nodes with
  | nil => intro i db ctr h; exact h
  | cons nd rest ih =>
    intro i db ctr h
    cases hsid : dlookup "id" nd.attrs with
    | none => simp only [read_xml_nodes, hsid]; exact h
    | some sid =>
      simp only [read_xml_nodes, hsid]
      exact ih _ _ _ (nodup_keys_dset _ _ h)

theorem rxn_untouched (fname : String) :
    ∀ (nodes : List ScanNode) (i : Nat) (db : ScanDb) (ctr : Nat) (k : String),
      k ∉ nodeIds nodes →
      dlookup k (read_xml_nodes fname nodes i db ctr).1 = dlookup k db := by
  intro nodes
  induction nodes with
  | nil => intro i db ctr k _; rfl
  | cons nd rest ih =>
    intro i db ctr k hk
    cases hsid : dlookup "id" nd.attrs with
    | none => simp only [read_xml_nodes, hsid]
    | some sid =>
      have hnid : nodeIds (nd :: rest) = sid :: nodeIds rest := by
        simp [nodeIds, List.filterMap_cons, hsid]
      rw [hnid] at hk
      simp only [List.mem_cons] at hk
      push_neg at hk
      simp only [read_xml_nodes, hsid]
      rw [ih _ _ _ k hk.2]
      exact dlookup_dset_ne _ _ _ _ hk.1

theorem rxn_fresh (fname : String) :
    ∀ (nodes : List ScanNode) (i : Nat) (db : ScanDb) (ctr : Nat),
      (∀ nd ∈ nodes, (dlookup "id" nd.attrs).isSome) →
      ∀ k ∈ nodeIds nodes,
        ∃ rec, dlookup k (read_xml_nodes fname nodes i db ctr).1 = some rec ∧
          ctr ≤ rec.uuid := by
  intro nodes
  induction nodes with
  | nil => intro i db ctr _ k hk; simp [nodeIds] at hk
  | cons nd rest ih =>
    intro i db ctr hids k hk
    have h0 := hids nd (List.mem_cons_self _ _)
    cases hsid : dlookup "id" nd.attrs with
    | none => rw [hsid] at h0; simp at h0
    | some sid =>
      have hnid : nodeIds (nd :: rest) = sid :: nodeIds rest := by
        simp [nodeIds, List.filterMap_cons, hsid]
      rw [hnid] at hk
      simp only [read_xml_nodes, hsid]
      by_cases hkr : k ∈ nodeIds rest
      · obtain ⟨rec, hr1, hr2⟩ := ih _ _ _
          (fun nd' hh => hids nd' (List.mem_cons_of_mem _ hh)) k hkr
        exact ⟨rec, hr1, Nat.le_of_succ_le hr2⟩
      · rcases List.mem_cons.mp hk with hks | hks
        · subst hks
          refine ⟨mkScan fname ctr k nd, ?_, Nat.le_refl ctr⟩
          rw [rxn_untouched fname rest _ _ _ k hkr]
          exact dlookup_dset_self _ _ _
        · exact absurd hks hkr

/-- C6: loading the same valid file twice gives no error, a registry whose
size is the number of distinct `id` values, and every stored record is one
built in the second pass (its uuid is at least the counter reached after
the first load) — a wholesale last-writer-wins replacement, not a merge or
a duplicate entry. -/
theorem spec_C6_idempotent_reload (fname : String) (nodes : List ScanNode)
    (hids : ∀ nd ∈ nodes, (dlookup "id" nd.attrs).isSome) :
    (read_xml_file fname nodes [] 0).2.2 = none ∧
    (load_twice fname nodes).2.2 = none ∧
    (load_twice fname nodes).1.length = (nodeIds nodes).toFinset.card ∧
    (∀ k ∈ nodeIds nodes, ∃ rec, dlookup k (load_twice fname nodes).1 = some rec ∧
      (read_xml_file fname nodes [] 0).2.1 ≤ rec.uuid) := by
  refine ⟨rxn_err_none fname nodes 0 [] 0 hids, rxn_err_none fname nodes 0 _ _ hids,
    ?_, ?_⟩
  · have hnd1 : ((read_xml_file fname nodes [] 0).1.map Prod.fst).Nodup :=
      rxn_nodup fname nodes 0 [] 0 (by simp)
    have hnd2 : ((load_twice fname nodes).1.map Prod.fst).Nodup :=
      rxn_nodup fname nodes 0 _ _ hnd1
    have hiff : ∀ k, k ∈ (load_twice fname nodes).1.map Prod.fst ↔ k ∈ nodeIds nodes := by
      intro k
      have hk2 := rxn_keys fname nodes 0 (read_xml_file fname nodes [] 0).1
        (read_xml_file fname nodes [] 0).2.1 hids k
      have hk1 := rxn_keys fname nodes 0 [] 0 hids k
      simp only [List.map_nil, List.not_mem_nil, false_or] at hk1
      have hk1f : k ∈ (read_xml_file fname nodes [] 0).1.map Prod.fst ↔
          k ∈ nodeIds nodes := hk1
      rw [show (load_twice fname nodes).1 =
        (read_xml_nodes fname nodes 0 (read_xml_file fname nodes [] 0).1
          (read_xml_file fname nodes [] 0).2.1).1 from rfl]
      rw [hk2, hk1f]
      tauto
    have hset : ((load_twice fname nodes).1.map Prod.fst).toFinset =
        (nodeIds nodes).toFinset := by
      apply Finset.ext
      intro a
      simp only [List.mem_toFinset]
      exact hiff a
    calc (load_twice fname nodes).1.length
        = ((load_twice fname nodes).1.map Prod.fst).length := (List.length_map _ _).symm
      _ = ((load_twice fname nodes).1.map Prod.fst).toFinset.card :=
          (List.toFinset_card_of_nodup hnd2).symm
      _ = (nodeIds nodes).toFinset.card := by rw [hset]
  · intro k hk
    exact rxn_fresh fname nodes 0 _ _ hids k hk

theorem rxn_append (fname : String) :
    ∀ (pre rest : List ScanNode) (i : Nat) (db : ScanDb) (ctr : Nat),
      (∀ nd ∈ pre, (dlookup "id" nd.attrs).isSome) →
      read_xml_nodes fname (pre ++ rest) i db ctr =
        read_xml_nodes fname rest (i + pre.length)
          (read_xml_nodes fname pre i db ctr).1 (read_xml_nodes fname pre i db ctr).2.1 := by
  intro pre
  induction pre with
  | nil => intro rest i db ctr _; simp [read_xml_nodes]
  | cons nd tail ih =>
    intro rest i db ctr hids
    have h0 := hids nd (List.mem_cons_self _ _)
    cases hsid : dlookup "id" nd.attrs with
    | none => rw [hsid] at h0; simp at h0
    | some sid =>
      simp only [List.cons_append, read_xml_nodes, hsid]
      have hconv : tail.append rest = tail ++ rest := rfl
      rw [hconv, ih rest (i + 1) _ _ (fun nd' hh => hids nd' (List.mem_cons_of_mem _ hh))]
      have harith : i + 1 + tail.length = i + (nd :: tail).length := by
        simp [List.length_cons]
        omega
      rw [harith]

/-- C7: a scan node with no `id` attribute stops that file's load with the
source's descriptive error (naming the file and the node's index): the
registry holds exactly the records of the nodes before the offending one,
and nothing from that point on is added, so no unkeyed entry can exist. -/
theorem spec_C7_missing_id_aborts (fname : String) (pre : List ScanNode) (bad : ScanNode)
    (post : List ScanNode) (db : ScanDb) (ctr : Nat)
    (hpre : ∀ nd ∈ pre, (dlookup "id" nd.attrs).isSome)
    (hbad : dlookup "id" bad.attrs = none) :
    read_xml_file fname (pre ++ bad :: post) db ctr =
      ((read_xml_file fname pre db ctr).1, (read_xml_file fname pre db ctr).2.1,
        some ("file " ++ fname ++ ", node " ++ toString pre.length ++
          " has no @id attribute")) := by
  unfold read_xml_file
  rw [rxn_append fname pre (bad :: post) 0 db ctr hpre]
  simp only [read_xml_nodes, hbad, Nat.zero_add]

/-! ## Concrete witnesses -/

/-- A two-row step scan with an "Epoch" column and a column name needing
sanitization. -/
def ssStep : SpecScan :=
  { date := "2014-10-13"
    scanCmd := "ascan m 0 1 2"
    comments := []
    data := [("m", [0, 1]), ("Epoch", [10, 20]), ("H K L", [5, 6])]
    column_first := "m"
    positioner := []
    metadata := []
    positioner_xref := []
    counter_xref := []
    T := none
    M := none }

/-- A filesystem with one valid SPEC file holding `ssStep` as scan 2. -/
def fsStep : Fs := [("/share1/USAXS_data/s.dat", FsFile.valid [("2", ssStep)])]

/-- The log record for `ssStep`. -/
def scanStep : ScanRec :=
  { xml_filename := "2014-scanlog.xml"
    xml_id := "2:/share1/USAXS_data/s.dat"
    uuid := 3
    number := some "2"
    state := some "complete"
    ty := some "ascan"
    children := [("file", "/share1/USAXS_data/s.dat"),
                 ("started", "2014-10-13 22:08:08"),
                 ("ended", "2014-10-13 22:09:59"), ("title", "t2")]
    stream := none }

theorem spec_C1_witness :
    ∃ docs c2 n2, process_one_scan ext0 fsStep none 0 scanStep = Except.ok (docs, c2, n2) ∧
      (docs.head?.map Prod.fst = some "start" ∧
       countKind docs "start" = 1 ∧
       (scanStep.state = some "unknown" → countKind docs "stop" = 0) ∧
       (scanStep.state ≠ some "unknown" →
         countKind docs "stop" = 1 ∧
         ∃ s d mid, docs = ("start", s) :: mid ++ [("stop", d)] ∧
           ∀ e ∈ mid, e.1 = "descriptor" ∨ e.1 = "event") ∧
       eventSeqs docs = List.range' 1 (eventSeqs docs).length) :=
  ⟨_, _, _, rfl, spec_C1_document_order ext0 fsStep none 0 scanStep _ _ _ rfl⟩

theorem spec_C2_witness :
    ∃ docs c2 n2, process_one_scan ext0 fsStep none 0 scanStep = Except.ok (docs, c2, n2) ∧
      ∀ sd v, ("stop", sd) ∈ docs → dlookup "num_events" sd = some v →
        v = Value.vnat (countKind docs "event") :=
  ⟨_, _, _, rfl, spec_C2_num_events ext0 fsStep none 0 scanStep _ _ _ rfl rfl⟩

theorem spec_C3_witness :
    (∃ e, make_stop_document ext0 0 scanBad = Except.error e) ∧
    (∃ d, make_stop_document ext0 0 scanGood = Except.ok (some d, 0 + 1) ∧
      dlookup "exit_status" d = some (Value.vstr "success")) ∧
    (∃ e, make_document_stream ext0 [] none 0 [scanBad, scanGood] = Except.error e) :=
  ⟨(spec_C3_exit_status_amended ext0 0 scanBad).1 "failed" rfl (by decide) (by decide)
      (by decide),
   ((spec_C3_exit_status_amended ext0 0 scanGood).2.2.1 "2014-10-13 22:10:26" rfl rfl).1 rfl,
   (spec_C3_exit_status_amended ext0 0 scanBad).2.2.2 [] none "failed" [scanGood] rfl
      (by decide) (by decide) (by decide)⟩

theorem spec_C5_witness :
    noBad (cleanup_name "H K,L.2") ∧
    cleanup_name "H K L" = "H_K_L" ∧
    (∃ docs c2 n2, process_one_scan ext0 fsStep none 0 scanStep = Except.ok (docs, c2, n2) ∧
      (∀ d, ("event", d) ∈ docs →
        (∀ md, dlookup "data" d = some (Value.vdict md) → keysNoBad md) ∧
        (∀ md, dlookup "timestamps" d = some (Value.vdict md) → keysNoBad md)) ∧
      (∀ d, ("descriptor", d) ∈ docs → descriptorDocOK d)) :=
  ⟨spec_C5_sanitized_keys.1 "H K,L.2", spec_C5_sanitized_keys.2.1,
   ⟨_, _, _, rfl, spec_C5_sanitized_keys.2.2 ext0 fsStep none 0 scanStep _ _ _ rfl⟩⟩

/-- A scan node in the style of the scan-log XML. -/
def nodeA1 : ScanNode :=
  ⟨[("id", "125:/share1/a.dat"), ("number", "125"), ("state", "complete"),
    ("type", "FlyScan")],
   [⟨"title", [], "Strip2_15_4min"⟩, ⟨"file", [], "/share1/a.dat"⟩,
    ⟨"started", [("date", "2014-10-13"), ("time", "22:08:08")], ""⟩]⟩

/-- A second node with a fresh id. -/
def nodeB : ScanNode := ⟨[("id", "126:/share1/a.dat"), ("number", "126")], []⟩

/-- A third node reusing `nodeA1`'s id. -/
def nodeA2 : ScanNode := ⟨[("id", "125:/share1/a.dat"), ("number", "125")], []⟩

/-- A node missing the mandatory id attribute. -/
def nodeNoId : ScanNode := ⟨[("number", "127")], []⟩

/-- Three nodes, two distinct ids. -/
def nodesW : List ScanNode := [nodeA1, nodeB, nodeA2]

theorem spec_C6_witness :
    (read_xml_file "w.xml" nodesW [] 0).2.2 = none ∧
    (load_twice "w.xml" nodesW).2.2 = none ∧
    (load_twice "w.xml" nodesW).1.length = (nodeIds nodesW).toFinset.card ∧
    (∀ k ∈ nodeIds nodesW, ∃ rec, dlookup k (load_twice "w.xml" nodesW).1 = some rec ∧
      (read_xml_file "w.xml" nodesW [] 0).2.1 ≤ rec.uuid) :=
  spec_C6_idempotent_reload "w.xml" nodesW (by decide)

theorem spec_C7_witness :
    read_xml_file "w.xml" ([nodeA1] ++ nodeNoId :: []) [] 0 =
      ((read_xml_file "w.xml" [nodeA1] [] 0).1, (read_xml_file "w.xml" [nodeA1] [] 0).2.1,
        some ("file " ++ "w.xml" ++ ", node " ++
          toString ([nodeA1] : List ScanNode).length ++ " has no @id attribute")) :=
  spec_C7_missing_id_aborts "w.xml" [nodeA1] nodeNoId [] [] 0 (by decide) rfl

/-- A record whose declared data file does not exist in the filesystem. -/
def scanNoFile : ScanRec :=
  { xml_filename := "2014-scanlog.xml"
    xml_id := "5:/share1/gone.dat"
    uuid := 4
    number := some "5"
    state := some "complete"
    ty := some "uascan"
    children := [("file", "/share1/gone.dat"),
                 ("started", "2014-10-13 20:00:00"), ("title", "t5")]
    stream := none }

theorem spec_C8_witness :
    ∃ sd td cache2,
      process_one_scan ext0 [] none 7 scanNoFile =
        Except.ok ([("start", sd), ("stop", td)], cache2, 7 + 1) ∧
      (dlookup "/share1/gone.dat" ([] : Fs) = none → cache2 = none) ∧
      ∀ rest, make_document_stream ext0 [] none 7 (scanNoFile :: rest) =
        Except.map (fun r => [("start", sd), ("stop", td)] ++ r)
          (make_document_stream ext0 [] cache2 (7 + 1) rest) :=
  spec_C8_missing_datafile_recoverable ext0 [] none 7 scanNoFile "/share1/gone.dat"
    "2014-10-13 20:00:00" "t5" rfl (Or.inl rfl) (fun o h => nomatch h) rfl rfl rfl
    (Or.inl rfl)

/-- A fly scan whose command's first token "Scan" is a proper substring of
"FlyScan". -/
def ssFly : SpecScan :=
  { date := "2014-10-13"
    scanCmd := "Scan ar 8.76068 0 7.1442 2.5e-05"
    comments := ["FlyScan file name = /share1/out.h5\n"]
    data := []
    column_first := "m"
    positioner := []
    metadata := []
    positioner_xref := []
    counter_xref := []
    T := none
    M := none }

/-- A filesystem with the fly-scan file as scan 7. -/
def fsFly : Fs := [("/share1/fly.dat", FsFile.valid [("7", ssFly)])]

/-- The log record for `ssFly`. -/
def scanFly : ScanRec :=
  { xml_filename := "2014-scanlog.xml"
    xml_id := "7:/share1/fly.dat"
    uuid := 6
    number := some "7"
    state := some "complete"
    ty := some "FlyScan"
    children := [("file", "/share1/fly.dat"),
                 ("started", "2014-10-13 22:08:08"), ("title", "t7")]
    stream := none }

theorem spec_C10_witness :
    ∃ scan2, parse_scan_data ext0 fsFly none 0 scanFly =
      Except.ok (some [], some ⟨"/share1/fly.dat", [("7", ssFly)]⟩, 0, scan2) ∧
      ∀ path, flyscan_hdf5 ssFly.comments = some path →
        ∃ m, scan2.stream = some m ∧
          dlookup "start.SPEC.hdf5_file" m = some (Value.vstr path) :=
  spec_C10_flyscan_substring_dispatch ext0 fsFly 0 scanFly "/share1/fly.dat" "7"
    [("7", ssFly)] ssFly "Scan" ["ar", "8.76068", "0", "7.1442", "2.5e-05"]
    rfl rfl rfl rfl rfl (by decide) (by decide) (by decide)
